import Mathlib

/-!
# FoodPlanner — planner state engine, shallow embedding

This file embeds the planner state engine of the FoodPlanner repository
(`src/web/src/store/usePlannerStore.ts`) and proves / refutes the frozen
claims about it.

Modelling conventions:
* JavaScript numbers are modelled as rationals (`ℚ`); `Math.round` is
  `⌊x + 1/2⌋` (round half towards +∞), `Math.floor` is `⌊·⌋`.
* Optional TS fields (`field?: T`) are `Option T`; `null`/`undefined`
  slot values are `Option SlotEntry`.
* JS objects used as string-keyed records (`CellEntry.profiles`,
  `weekPlans`) are association lists in insertion order: assignment to an
  existing key replaces its value in place, a new key is appended —
  exactly the enumeration-order semantics of JS objects.
* The deep-copy helpers of the source (`cloneSlot`, `cloneCell`,
  `clonePlan`, the object spreads in snapshots) are transcribed
  structurally; in a pure value model they are provably the identity,
  which is recorded as simp lemmas.
* `createId` calls `Math.random()` and record creation reads the wall
  clock (`new Date()`); these hidden inputs are reified as an explicit
  environment `Env` (a stream of fresh id suffixes plus the current
  timestamp) threaded into exactly the operations whose source mints ids
  or timestamps.
-/

/-- JS `Math.round`: round half towards positive infinity. -/
def jround (q : ℚ) : ℤ := ⌊q + 1/2⌋

/-- `roundCount` from the source: `Math.round(value * 100) / 100`
(round to two decimal places). -/
def roundCount (value : ℚ) : ℚ := (jround (value * 100) : ℚ) / 100

/-- A JS `a || b` on numbers: `b` when `a` is falsy (zero), else `a`. -/
def orFalsy (a b : ℚ) : ℚ := if a = 0 then b else a

/-- Lowercase letters and digits, the characters the source's
`normalizeName` regex `[^a-z0-9]+` keeps (after lowercasing). -/
def isKeptChar (c : Char) : Bool :=
  (97 ≤ c.toNat && c.toNat ≤ 122) || (48 ≤ c.toNat && c.toNat ≤ 57)

/-- Replace each maximal run of non-kept characters by a single space,
mirroring `.replace(/[^a-z0-9]+/g, ' ')`.  The flag records whether the
previous character was part of such a run. -/
def collapseRuns : Bool → List Char → List Char
  | _, [] => []
  | prevRun, c :: rest =>
    if isKeptChar c then c :: collapseRuns false rest
    else if prevRun then collapseRuns true rest
    else ' ' :: collapseRuns true rest

/-- Lowercase a string character-wise (JS `toLowerCase` on the ASCII
names this code base uses). -/
def lowerStr (s : String) : String := String.mk (s.data.map Char.toLower)

/-- JS `String.prototype.trim`: drop whitespace from both ends
(structural implementation over the character list). -/
def trimChars (l : List Char) : List Char :=
  ((l.dropWhile Char.isWhitespace).reverse.dropWhile Char.isWhitespace).reverse

/-- JS `.trim()` on a string. -/
def trimStr (s : String) : String := String.mk (trimChars s.data)

/-- `normalizeName` from the source:
`name.toLowerCase().trim().replace(/[^a-z0-9]+/g, ' ')`. -/
def normalizeName (name : String) : String :=
  String.mk (collapseRuns false (trimChars (lowerStr name).data))

/-- Fixed category enumeration (`CATEGORIES` in `constants.ts`). -/
def CATEGORIES : List String := ["Protein", "Dairy", "Produce", "Pantry", "Other"]

/-- `Ingredient` record (`types.ts`).  `category` is kept as a plain
string; the custom-category mechanism admits arbitrary strings anyway. -/
structure Ingredient where
  id : String
  name : String
  category : String
  count : ℚ
  servingsPerCount : Option ℚ
  expirationDate : Option String := none
  pinned : Option Bool := none
  notes : Option String := none
  calories : Option ℚ := none
  protein_g : Option ℚ := none
  carbs_g : Option ℚ := none
  fat_g : Option ℚ := none
  createdAt : String
  deriving DecidableEq, Repr

/-- `MealIngredient` record (`types.ts`). -/
structure MealIngredient where
  name : String
  category : Option String := none
  qty : Option ℚ := none
  deriving DecidableEq, Repr

/-- `Meal` record (`types.ts`). -/
structure Meal where
  id : String
  name : String
  ingredients : List MealIngredient
  servingsDefault : ℚ
  caloriesPerServing : Option ℚ := none
  pinned : Option Bool := none
  createdAt : String
  deriving DecidableEq, Repr

/-- `Profile` record (`types.ts`). -/
structure Profile where
  id : String
  name : String
  color : String
  goalEnabled : Option Bool := none
  dailyCalorieGoal : Option ℚ := none
  dailyProteinGoalG : Option ℚ := none
  dailyCarbsGoalG : Option ℚ := none
  dailyFatGoalG : Option ℚ := none
  createdAt : String
  deriving DecidableEq, Repr

/-- `IngredientRef` record (`types.ts`): a line inside a planned slot. -/
structure IngredientRef where
  ingredientId : Option String
  name : String
  qty : ℚ
  deriving DecidableEq, Repr

/-- `SlotEntry` record (`types.ts`). -/
structure SlotEntry where
  mealId : Option String := none
  adHocMealName : Option String := none
  ingredientRefs : List IngredientRef
  servings : ℚ
  notes : Option String := none
  isLeftovers : Option Bool := none
  deriving DecidableEq, Repr

/-- `CellEntry` record (`types.ts`): the per-(mealType, day) cell.
`profiles` is the JS record `profileId → SlotEntry | null`. -/
structure CellEntry where
  family : Option SlotEntry
  profiles : List (String × Option SlotEntry)
  deriving DecidableEq, Repr

/-- The four meal-type rows. -/
inductive MealType
  | breakfast
  | lunch
  | dinner
  | snack
  deriving DecidableEq, Repr

/-- The `grid` record of a `WeekPlan`: four rows of 7 optional cells. -/
structure WeekGrid where
  breakfast : List (Option CellEntry)
  lunch : List (Option CellEntry)
  dinner : List (Option CellEntry)
  snack : List (Option CellEntry)
  deriving DecidableEq, Repr

/-- `WeekPlan` record (`types.ts`). -/
structure WeekPlan where
  weekStartDate : String
  grid : WeekGrid
  deriving DecidableEq, Repr

/-- `ReceiptDraftItem` record (`types.ts`): a draft inventory line
produced by the external receipt / AI parsers. -/
structure ReceiptDraftItem where
  id : String
  name : String
  category : String
  count : ℚ
  deriving DecidableEq, Repr

/-- The inventory sort toggle. -/
inductive SortMode
  | category
  | expiry
  deriving DecidableEq, Repr

/-- `PlannerSnapshot` (`usePlannerStore.ts`): the fields captured for
undo/redo. -/
structure PlannerSnapshot where
  ingredients : List Ingredient
  meals : List Meal
  profiles : List Profile
  customCategories : List String
  pinnedMealIds : List String
  weekPlans : List (String × WeekPlan)
  currentWeekStartDate : String
  inventorySort : SortMode
  deriving DecidableEq, Repr

/-- The live store state: the snapshot fields plus the history stacks. -/
structure PlannerState where
  ingredients : List Ingredient
  meals : List Meal
  profiles : List Profile
  customCategories : List String
  pinnedMealIds : List String
  weekPlans : List (String × WeekPlan)
  currentWeekStartDate : String
  inventorySort : SortMode
  past : List PlannerSnapshot
  future : List PlannerSnapshot
  deriving DecidableEq, Repr

/-- Slot target: the shared family slot or one person's slot. -/
inductive TargetType
  | family
  | profile
  deriving DecidableEq, Repr

/-- `SlotAddress` (`usePlannerStore.ts`). -/
structure SlotAddress where
  mealType : MealType
  day : Nat
  targetType : TargetType
  profileId : Option String := none
  deriving DecidableEq, Repr

/-- The reified hidden inputs of the source: `Math.random()`-based id
suffixes (one per draw) and the `new Date().toISOString()` timestamp. -/
structure Env where
  ids : Nat → String
  now : String

/-- `createId` from the source: `prefix + '-' + randomSuffix`, with the
random suffix supplied by the environment's id stream. -/
def createId (pre : String) (env : Env) (draw : Nat) : String :=
  pre ++ "-" ++ env.ids draw

/-- Association-list lookup, mirroring JS property access `rec[key]`. -/
def lookupAssoc {α : Type} (l : List (String × α)) (k : String) : Option α :=
  (l.find? (fun p => p.1 == k)).map (·.2)

/-- Association-list assignment `rec[key] = v`: replace the value in
place when the key exists, append otherwise (JS object semantics). -/
def updAssoc {α : Type} (l : List (String × α)) (k : String) (v : α) : List (String × α) :=
  if l.any (fun p => p.1 == k) then
    l.map (fun p => if p.1 == k then (k, v) else p)
  else
    l ++ [(k, v)]

/-- `normalizeServingsPerCount`: missing / zero (falsy) values become 1,
everything else is floored at 0.01. -/
def normalizeServingsPerCount (value : Option ℚ) : ℚ :=
  match value with
  | none => 1
  | some v => if v = 0 then 1 else max (1/100) v

/-- `servingsToCountDelta`: convert a serving-unit quantity to a
stock-count delta via `qty / servingsPerCount`. -/
def servingsToCountDelta (servingsQty : ℚ) (servingsPerCount : Option ℚ) : ℚ :=
  servingsQty / normalizeServingsPerCount servingsPerCount

/-- `defaultSlotEntry`. -/
def defaultSlotEntry : SlotEntry :=
  { ingredientRefs := [], servings := 2 }

/-- `createEmptyWeekPlan`: all 4 × 7 cells null. -/
def createEmptyWeekPlan (weekStartDate : String) : WeekPlan :=
  { weekStartDate := weekStartDate
    grid :=
      { breakfast := List.replicate 7 none
        lunch := List.replicate 7 none
        dinner := List.replicate 7 none
        snack := List.replicate 7 none } }

/-- Copy of one `IngredientRef` (the object spread in `cloneSlot`). -/
def copyRef (r : IngredientRef) : IngredientRef :=
  { ingredientId := r.ingredientId, name := r.name, qty := r.qty }

/-- `cloneSlot` on a non-null entry. -/
def cloneSlotEntry (e : SlotEntry) : SlotEntry :=
  { mealId := e.mealId
    adHocMealName := e.adHocMealName
    ingredientRefs := e.ingredientRefs.map copyRef
    servings := e.servings
    notes := e.notes
    isLeftovers := e.isLeftovers }

/-- `cloneSlot` from the source (`null`/`undefined` map to `null`). -/
def cloneSlot (entry : Option SlotEntry) : Option SlotEntry :=
  entry.map cloneSlotEntry

/-- `cloneCell` from the source. -/
def cloneCell (cell : Option CellEntry) : Option CellEntry :=
  cell.map (fun c =>
    { family := cloneSlot c.family
      profiles := c.profiles.map (fun p => (p.1, cloneSlot p.2)) })

/-- `clonePlan` from the source. -/
def clonePlan (plan : WeekPlan) : WeekPlan :=
  { weekStartDate := plan.weekStartDate
    grid :=
      { breakfast := plan.grid.breakfast.map cloneCell
        lunch := plan.grid.lunch.map cloneCell
        dinner := plan.grid.dinner.map cloneCell
        snack := plan.grid.snack.map cloneCell } }

/-- Read one grid row (`plan.grid[mealType]`). -/
def WeekGrid.row (g : WeekGrid) : MealType → List (Option CellEntry)
  | .breakfast => g.breakfast
  | .lunch => g.lunch
  | .dinner => g.dinner
  | .snack => g.snack

/-- Replace one grid row. -/
def WeekGrid.setRow (g : WeekGrid) : MealType → List (Option CellEntry) → WeekGrid
  | .breakfast, r => { g with breakfast := r }
  | .lunch, r => { g with lunch := r }
  | .dinner, r => { g with dinner := r }
  | .snack, r => { g with snack := r }

/-- `getCell`: `plan.grid[mealType][day] ?? null`. -/
def getCell (plan : WeekPlan) (addr : SlotAddress) : Option CellEntry :=
  ((plan.grid.row addr.mealType).getD addr.day none)

/-- Write `plan.grid[mealType][day] = v`. -/
def putCell (plan : WeekPlan) (addr : SlotAddress) (v : Option CellEntry) : WeekPlan :=
  { plan with grid := plan.grid.setRow addr.mealType ((plan.grid.row addr.mealType).set addr.day v) }

/-- `slotKey`. -/
def slotKey (addr : SlotAddress) : String :=
  match addr.targetType with
  | .family => "family"
  | .profile => addr.profileId.getD ""

/-- `getSlot`. -/
def getSlot (plan : WeekPlan) (addr : SlotAddress) : Option SlotEntry :=
  match getCell plan addr with
  | none => none
  | some cell =>
    match addr.targetType with
    | .family => cloneSlot cell.family
    | .profile =>
      match addr.profileId with
      | none => none
      | some pid => cloneSlot ((lookupAssoc cell.profiles pid).getD none)

/-- `setSlot`: write a slot, collapsing a fully empty cell to null. -/
def setSlot (plan : WeekPlan) (addr : SlotAddress) (value : Option SlotEntry) : WeekPlan :=
  let existing := (getCell plan addr).getD { family := none, profiles := [] }
  let nextCell : CellEntry := { family := cloneSlot existing.family, profiles := existing.profiles }
  let nextCell :=
    match addr.targetType with
    | .family => { nextCell with family := cloneSlot value }
    | .profile =>
      match addr.profileId with
      | some pid => { nextCell with profiles := updAssoc nextCell.profiles pid (cloneSlot value) }
      | none => nextCell
  let hasAnyProfile := nextCell.profiles.any (fun p => p.2.isSome)
  let hasAny := nextCell.family.isSome || hasAnyProfile
  putCell plan addr (if hasAny then some nextCell else none)

/-- Key under which refs and ledger rows are matched:
`id:<ingredientId>` when bound, else `name:<normalized name>`. -/
def refKey (r : IngredientRef) : String :=
  match r.ingredientId with
  | some i => "id:" ++ i
  | none => "name:" ++ normalizeName r.name

/-- `addIngredientRef`: merge into the first ref with the same key
(`findIndex`), else push at the end. -/
def addIngredientRef : List IngredientRef → IngredientRef → List IngredientRef
  | [], incoming => [incoming]
  | item :: rest, incoming =>
    if refKey item == refKey incoming then
      { item with qty := item.qty + incoming.qty } :: rest
    else
      item :: addIngredientRef rest incoming

/-- `scaleIngredientRefs`: scale every qty, round to 2 decimals, floor
at 0.01.  (The source's `Number.isFinite` guard on the factor cannot
fire here: the callers divide by values ≥ 1.) -/
def scaleIngredientRefs (list : List IngredientRef) (factor : ℚ) : List IngredientRef :=
  list.map (fun item => { item with qty := max (1/100) (roundCount (item.qty * factor)) })

/-- Direction tag of `adjustInventoryForIngredientRefs`. -/
inductive AdjustDirection
  | consume
  | restore
  deriving DecidableEq, Repr

/-- `adjustInventoryForIngredientRefs`: apply every matching ref's
converted delta to each ingredient, clamp at 0, round to 2 decimals. -/
def adjustInventoryForIngredientRefs (ingredients : List Ingredient)
    (refs : List IngredientRef) (direction : AdjustDirection) : List Ingredient :=
  let multiplier : ℚ := match direction with | .consume => -1 | .restore => 1
  ingredients.map (fun ingredient =>
    let nextCount := refs.foldl (fun acc ref =>
      let matchById := ref.ingredientId.isSome && ref.ingredientId == some ingredient.id
      let matchByName := ref.ingredientId.isNone &&
        normalizeName ref.name == normalizeName ingredient.name
      if matchById || matchByName then
        acc + servingsToCountDelta ref.qty ingredient.servingsPerCount * multiplier
      else acc) ingredient.count
    { ingredient with count := roundCount (max 0 nextCount) })

/-- History capacity. -/
def HISTORY_LIMIT : Nat := 100

/-- JS `array.slice(-n)`: the last `n` elements. -/
def takeLast {α : Type} (n : Nat) (l : List α) : List α :=
  l.drop (l.length - n)

/-- `snapshotFromState`: deep copy of the snapshot fields (deep copies
are the identity on pure values, so this extracts the fields). -/
def snapshotFromState (s : PlannerState) : PlannerSnapshot :=
  { ingredients := s.ingredients
    meals := s.meals
    profiles := s.profiles
    customCategories := s.customCategories
    pinnedMealIds := s.pinnedMealIds
    weekPlans := s.weekPlans
    currentWeekStartDate := s.currentWeekStartDate
    inventorySort := s.inventorySort }

/-- Install a snapshot as the current state with the given stacks
(the `{...snapshot, past, future}` merge in `undo`/`redo`). -/
def restoreSnapshot (sn : PlannerSnapshot) (past future : List PlannerSnapshot) : PlannerState :=
  { ingredients := sn.ingredients
    meals := sn.meals
    profiles := sn.profiles
    customCategories := sn.customCategories
    pinnedMealIds := sn.pinnedMealIds
    weekPlans := sn.weekPlans
    currentWeekStartDate := sn.currentWeekStartDate
    inventorySort := sn.inventorySort
    past := past
    future := future }

/-- `commitWithHistory` followed by the store's merge: `patched` is the
state with the patch fields applied; the old state's snapshot is pushed
onto the bounded past stack and the future stack is cleared. -/
def commitWithHistory (s patched : PlannerState) : PlannerState :=
  { patched with
    past := takeLast HISTORY_LIMIT (s.past ++ [snapshotFromState s])
    future := [] }

/-- `undo`. -/
def undo (s : PlannerState) : PlannerState :=
  match s.past.getLast? with
  | none => s
  | some previous =>
    restoreSnapshot previous s.past.dropLast
      (List.take HISTORY_LIMIT (snapshotFromState s :: s.future))

/-- `redo`. -/
def redo (s : PlannerState) : PlannerState :=
  match s.future with
  | [] => s
  | next :: rest =>
    restoreSnapshot next (takeLast HISTORY_LIMIT (s.past ++ [snapshotFromState s])) rest

/-- `ensurePlan`: add an empty plan for the week if absent. -/
def ensurePlan (weekPlans : List (String × WeekPlan)) (weekStartDate : String) :
    List (String × WeekPlan) :=
  if (lookupAssoc weekPlans weekStartDate).isSome then weekPlans
  else weekPlans ++ [(weekStartDate, createEmptyWeekPlan weekStartDate)]

/-- The current week's plan after `ensurePlan` (the `getD` default is
unreachable). -/
def currentPlanOf (weekPlans : List (String × WeekPlan)) (k : String) : WeekPlan :=
  (lookupAssoc weekPlans k).getD (createEmptyWeekPlan k)

/-- `adjustIngredientCount`: `count := max(0, roundCount(count + delta))`. -/
def adjustIngredientCount (s : PlannerState) (id : String) (delta : ℚ) : PlannerState :=
  commitWithHistory s
    { s with ingredients := s.ingredients.map (fun ingredient =>
        if ingredient.id == id then
          { ingredient with count := max 0 (roundCount (ingredient.count + delta)) }
        else ingredient) }

/-- `dropIngredientToCell`: no-op on unknown ids; seeds an empty slot
(with `servings = max(1, round(servingsPerCount ?? 1))`), merges one
qty-1 ref, and decrements the ledger by the converted delta. -/
def dropIngredientToCell (s : PlannerState) (addr : SlotAddress) (ingredientId : String) :
    PlannerState :=
  let weekPlans := ensurePlan s.weekPlans s.currentWeekStartDate
  let plan := clonePlan (currentPlanOf weekPlans s.currentWeekStartDate)
  match s.ingredients.find? (fun item => item.id == ingredientId) with
  | none => s
  | some ingredient =>
    let existing := getSlot plan addr
    let current := existing.getD defaultSlotEntry
    let current :=
      if existing.isNone then
        { current with servings := max 1 ((jround (ingredient.servingsPerCount.getD 1) : ℚ)) }
      else current
    let incoming : IngredientRef :=
      { ingredientId := some ingredient.id, name := ingredient.name, qty := 1 }
    let current :=
      { current with ingredientRefs := addIngredientRef current.ingredientRefs incoming }
    let plan := setSlot plan addr (some current)
    let weekPlans := updAssoc weekPlans s.currentWeekStartDate plan
    let deltaCount := servingsToCountDelta 1 ingredient.servingsPerCount
    commitWithHistory s
      { s with
        weekPlans := weekPlans
        ingredients := s.ingredients.map (fun item =>
          if item.id == ingredient.id then
            { item with count := roundCount (max 0 (item.count - deltaCount)) }
          else item) }

/-- The consumption loop of `dropMealToCell`: for each meal line, scale
the qty, resolve by normalized name against the (already updated) ledger,
append the ref and decrement the matched row's stock. -/
def consumeMealItems (scale : ℚ) :
    List MealIngredient → List IngredientRef → List Ingredient →
    List IngredientRef × List Ingredient
  | [], refs, ingredients => (refs, ingredients)
  | item :: rest, refs, ingredients =>
    let qty := max (1/100) (roundCount (max 1 (item.qty.getD 1) * scale))
    let idx := ingredients.findIdx? (fun g => normalizeName g.name == normalizeName item.name)
    let matched := idx.bind (fun i => ingredients.get? i)
    let refs := addIngredientRef refs
      { ingredientId := matched.map (·.id), name := item.name, qty := qty }
    let ingredients :=
      match idx, matched with
      | some i, some m =>
        ingredients.set i
          { m with count := roundCount (max 0 (m.count - servingsToCountDelta qty m.servingsPerCount)) }
      | _, _ => ingredients
    consumeMealItems scale rest refs ingredients

/-- `dropMealToCell`: no-op on unknown meal ids; restores an existing
slot's refs to the ledger first, then writes the meal's scaled lines and
consumes their stock. -/
def dropMealToCell (s : PlannerState) (addr : SlotAddress) (mealId : String) : PlannerState :=
  match s.meals.find? (fun item => item.id == mealId) with
  | none => s
  | some meal =>
    let weekPlans := ensurePlan s.weekPlans s.currentWeekStartDate
    let plan := clonePlan (currentPlanOf weekPlans s.currentWeekStartDate)
    let existing := getSlot plan addr
    let current := existing.getD defaultSlotEntry
    let current :=
      { current with
        mealId := some meal.id
        adHocMealName := none
        servings := orFalsy current.servings (orFalsy meal.servingsDefault 2) }
    let ingredients :=
      match existing with
      | some ex => adjustInventoryForIngredientRefs s.ingredients ex.ingredientRefs .restore
      | none => s.ingredients
    let servingScale := current.servings / max 1 (orFalsy meal.servingsDefault 1)
    let (newRefs, ingredients) := consumeMealItems servingScale meal.ingredients [] ingredients
    let current := { current with ingredientRefs := newRefs }
    let plan := setSlot plan addr (some current)
    let weekPlans := updAssoc weekPlans s.currentWeekStartDate plan
    commitWithHistory s { s with weekPlans := weekPlans, ingredients := ingredients }

/-- `moveOrSwapCell`: no-op on the same key/cell or an empty source;
otherwise a true swap of the two slots, with no ledger field in the
committed patch. -/
def moveOrSwapCell (s : PlannerState) (source target : SlotAddress) : PlannerState :=
  if slotKey source == slotKey target && source.day == target.day &&
      source.mealType == target.mealType then s
  else
    let weekPlans := ensurePlan s.weekPlans s.currentWeekStartDate
    let plan := clonePlan (currentPlanOf weekPlans s.currentWeekStartDate)
    match getSlot plan source with
    | none => s
    | some sourceEntry =>
      let targetEntry := getSlot plan target
      let plan := setSlot plan source targetEntry
      let plan := setSlot plan target (some sourceEntry)
      let weekPlans := updAssoc weekPlans s.currentWeekStartDate plan
      commitWithHistory s { s with weekPlans := weekPlans }

/-- `clearCell`: discard the slot without touching the ledger. -/
def clearCell (s : PlannerState) (addr : SlotAddress) : PlannerState :=
  let weekPlans := ensurePlan s.weekPlans s.currentWeekStartDate
  let plan := clonePlan (currentPlanOf weekPlans s.currentWeekStartDate)
  let plan := setSlot plan addr none
  let weekPlans := updAssoc weekPlans s.currentWeekStartDate plan
  commitWithHistory s { s with weekPlans := weekPlans }

/-- `removeCellToInventory`: clear the slot and restore every ref's
stock; no-op when the slot is already empty. -/
def removeCellToInventory (s : PlannerState) (addr : SlotAddress) : PlannerState :=
  let weekPlans := ensurePlan s.weekPlans s.currentWeekStartDate
  let plan := clonePlan (currentPlanOf weekPlans s.currentWeekStartDate)
  match getSlot plan addr with
  | none => s
  | some slot =>
    let plan := setSlot plan addr none
    let weekPlans := updAssoc weekPlans s.currentWeekStartDate plan
    let ingredients := adjustInventoryForIngredientRefs s.ingredients slot.ingredientRefs .restore
    commitWithHistory s { s with weekPlans := weekPlans, ingredients := ingredients }

/-- `makeLeftovers`: no-op for `day >= 6` or an empty source; otherwise
deep-copy the slot, flag it, and write it into lunch of the next day at
the same target. -/
def makeLeftovers (s : PlannerState) (addr : SlotAddress) : PlannerState :=
  if addr.day ≥ 6 then s
  else
    let weekPlans := ensurePlan s.weekPlans s.currentWeekStartDate
    let plan := clonePlan (currentPlanOf weekPlans s.currentWeekStartDate)
    match getSlot plan addr with
    | none => s
    | some sourceEntry =>
      let leftovers := { cloneSlotEntry sourceEntry with isLeftovers := some true }
      let plan := setSlot plan
        { mealType := .lunch, day := addr.day + 1
          targetType := addr.targetType, profileId := addr.profileId } (some leftovers)
      let weekPlans := updAssoc weekPlans s.currentWeekStartDate plan
      commitWithHistory s { s with weekPlans := weekPlans }

/-- The per-key net deltas of `setCellServings`: for each distinct ref
key, the rounded difference between the new and the old quantity. -/
def servingsDeltaRefs (originalRefs nextRefs : List IngredientRef) : List IngredientRef :=
  let allRefs := originalRefs ++ nextRefs
  let uniqueKeys := (allRefs.map refKey).dedup
  (uniqueKeys.map (fun key =>
    let old := originalRefs.find? (fun r => refKey r == key)
    let next := nextRefs.find? (fun r => refKey r == key)
    ({ ingredientId := (next.bind (·.ingredientId)).orElse (fun _ => old.bind (·.ingredientId))
       name := ((next.map (·.name)).orElse (fun _ => old.map (·.name))).getD ""
       qty := roundCount ((next.map (·.qty)).getD 0 - (old.map (·.qty)).getD 0) } : IngredientRef))).filter
    (fun item => item.name != "" && item.qty != 0)

/-- `setCellServings`: floor the requested servings at an integer ≥ 1,
rescale the refs, and run the per-key delta pass over the ledger.  In
the source `const current = original` aliases the slot object and
`current.ingredientRefs = nextIngredientRefs` is executed before
`const originalRefs = original?.ingredientRefs ?? []` is read, so the
"original" refs the delta pass compares against are the already
rescaled array. -/
def setCellServings (s : PlannerState) (addr : SlotAddress) (servings : ℚ) : PlannerState :=
  let validServings : ℚ := max 1 ((⌊servings⌋ : ℤ) : ℚ)
  let weekPlans := ensurePlan s.weekPlans s.currentWeekStartDate
  let plan := clonePlan (currentPlanOf weekPlans s.currentWeekStartDate)
  match getSlot plan addr with
  | none => s
  | some original =>
    let previousServings := max 1 (orFalsy original.servings 1)
    let nextIngredientRefs := scaleIngredientRefs original.ingredientRefs (validServings / previousServings)
    let current := { original with servings := validServings, ingredientRefs := nextIngredientRefs }
    let plan := setSlot plan addr (some current)
    let weekPlans := updAssoc weekPlans s.currentWeekStartDate plan
    let originalRefs := nextIngredientRefs
    let deltaRefs := servingsDeltaRefs originalRefs nextIngredientRefs
    let adjustedIngredients := s.ingredients.map (fun ingredient =>
      let nextCount := deltaRefs.foldl (fun acc deltaRef =>
        let matchById := deltaRef.ingredientId.isSome && deltaRef.ingredientId == some ingredient.id
        let matchByName := deltaRef.ingredientId.isNone &&
          normalizeName deltaRef.name == normalizeName ingredient.name
        if matchById || matchByName then
          let deltaCount := servingsToCountDelta |deltaRef.qty| ingredient.servingsPerCount
          if deltaRef.qty > 0 then acc - deltaCount else acc + deltaCount
        else acc) ingredient.count
      { ingredient with count := roundCount (max 0 nextCount) })
    commitWithHistory s { s with weekPlans := weekPlans, ingredients := adjustedIngredients }

/-- The fold of `mergeReceiptItems`: per draft item, merge
`max(1, count)` into the first ingredient with the same normalized name,
or prepend a fresh ingredient (minting an id from the environment). -/
def mergeReceiptList (env : Env) :
    List ReceiptDraftItem → List Ingredient → Nat → List Ingredient
  | [], ingredients, _ => ingredients
  | item :: rest, ingredients, draw =>
    let normalized := normalizeName item.name
    match ingredients.find? (fun g => normalizeName g.name == normalized) with
    | some found =>
      mergeReceiptList env rest
        (ingredients.map (fun g =>
          if g.id == found.id then { g with count := g.count + max 1 item.count } else g)) draw
    | none =>
      mergeReceiptList env rest
        ({ id := createId "ingredient" env draw
           name := item.name
           category := item.category
           count := max 1 item.count
           servingsPerCount := some 1
           createdAt := env.now } :: ingredients) (draw + 1)

/-- `mergeReceiptItems` (the Import Reconciler). -/
def mergeReceiptItems (env : Env) (s : PlannerState) (items : List ReceiptDraftItem) :
    PlannerState :=
  commitWithHistory s { s with ingredients := mergeReceiptList env items s.ingredients 0 }

/-- `addProfile`. -/
def addProfile (env : Env) (s : PlannerState) (name color : String) : PlannerState :=
  let trimmed := trimStr name
  commitWithHistory s
    { s with profiles := s.profiles ++
        [{ id := createId "profile" env 0
           name := if trimmed = "" then "Person " ++ toString (s.profiles.length + 1) else trimmed
           color := color
           goalEnabled := some false
           createdAt := env.now }] }

/-- A stored cell as found in an import payload.  `normalizeWeekPlan`
distinguishes three runtime shapes: the legacy flat slot (detected by an
`ingredientRefs` property), the modern `{family, profiles}` cell, and
the legacy bare profile-id → slot map. -/
inductive RawCell
  | legacy (mealId adHocMealName : Option String) (ingredientRefs : List IngredientRef)
      (servings : Option ℚ) (notes : Option String) (isLeftovers : Option Bool)
  | modern (cell : CellEntry)
  | profileMap (entries : List (String × Option SlotEntry))
  deriving DecidableEq, Repr

/-- A stored week plan in an import payload. -/
structure RawPlan where
  weekStartDate : String
  breakfast : List (Option RawCell)
  lunch : List (Option RawCell)
  dinner : List (Option RawCell)
  snack : List (Option RawCell)
  deriving DecidableEq, Repr

/-- Normalization of one raw cell (the row-mapping body of
`normalizeWeekPlan`). -/
def normalizeRawCell (primaryProfileId : String) : Option RawCell → Option CellEntry
  | none => none
  | some (.legacy mealId adHocMealName ingredientRefs servings notes isLeftovers) =>
    some
      { family := some
          { mealId := mealId
            adHocMealName := adHocMealName
            ingredientRefs := ingredientRefs
            servings := servings.getD 2
            notes := notes
            isLeftovers := isLeftovers }
        profiles := [] }
  | some (.modern cell) =>
    let profiles := cell.profiles.map (fun p => (p.1, cloneSlot p.2))
    let hasAnyProfile := profiles.any (fun p => p.2.isSome)
    let family := cloneSlot cell.family
    if family.isNone && !hasAnyProfile then none
    else some { family := family, profiles := profiles }
  | some (.profileMap entries) =>
    let profiles := entries.map (fun p => (p.1, cloneSlot p.2))
    let hasAny := profiles.any (fun p => p.2.isSome)
    if !hasAny then none
    else
      let profiles :=
        if ((lookupAssoc profiles primaryProfileId).getD none).isSome then profiles
        else
          let firstExisting := (profiles.map (·.2)).filterMap id |>.head?
          updAssoc profiles primaryProfileId (cloneSlot firstExisting)
      some { family := none, profiles := profiles }

/-- `normalizeWeekPlan`. -/
def normalizeWeekPlan (plan : RawPlan) (primaryProfileId : String) : WeekPlan :=
  { weekStartDate := plan.weekStartDate
    grid :=
      { breakfast := plan.breakfast.map (normalizeRawCell primaryProfileId)
        lunch := plan.lunch.map (normalizeRawCell primaryProfileId)
        dinner := plan.dinner.map (normalizeRawCell primaryProfileId)
        snack := plan.snack.map (normalizeRawCell primaryProfileId) } }

/-- An import payload.  The required fields are `Option`s because the
source validates their presence at runtime (`!payload.ingredients` …);
`currentWeekStartDate` is a string whose emptiness is the JS falsiness
the guard tests. -/
structure ImportPayload where
  ingredients : Option (List Ingredient)
  meals : Option (List Meal)
  profiles : Option (List Profile)
  customCategories : Option (List String) := none
  pinnedMealIds : Option (List String)
  weekPlans : Option (List (String × RawPlan))
  currentWeekStartDate : String
  deriving Repr

/-- `baseProfiles`: the two seed profiles, with ids and timestamps from
the environment. -/
def baseProfiles (env : Env) : List Profile :=
  [{ id := createId "profile" env 0
     name := "Me"
     color := "#0ea5e9"
     goalEnabled := some false
     createdAt := env.now },
   { id := createId "profile" env 1
     name := "Erica"
     color := "#f97316"
     goalEnabled := some false
     createdAt := env.now }]

/-- First-occurrence deduplication (`[...new Set(list)]`). -/
def dedupFirst (seen : List String) : List String → List String
  | [] => []
  | k :: rest =>
    if seen.contains k then dedupFirst seen rest
    else k :: dedupFirst (k :: seen) rest

/-- `importState`: reject payloads missing a required field (leaving the
state untouched, with no history push); otherwise normalize every stored
plan and replace the whole snapshot as one undoable commit.  Imported
ingredient counts are taken as-is; only `servingsPerCount` is
normalized. -/
def importState (env : Env) (s : PlannerState) (payload : ImportPayload) : PlannerState :=
  match payload.ingredients, payload.meals, payload.weekPlans with
  | some payloadIngredients, some payloadMeals, some payloadWeekPlans =>
    if payload.currentWeekStartDate = "" then s
    else
      let profiles :=
        match payload.profiles with
        | some ps => if ps.length > 0 then ps else baseProfiles env
        | none => baseProfiles env
      let primaryProfileId := ((profiles.head?).map (·.id)).getD (createId "profile" env 2)
      let normalizedPlans :=
        payloadWeekPlans.map (fun p => (p.1, normalizeWeekPlan p.2 primaryProfileId))
      commitWithHistory s
        { s with
          ingredients := payloadIngredients.map (fun item =>
            { item with servingsPerCount := some (normalizeServingsPerCount item.servingsPerCount) })
          meals := payloadMeals
          profiles := profiles
          customCategories := dedupFirst []
            ((payload.customCategories.getD []) ++
              (payloadIngredients.map (·.category)).filter (fun c =>
                !(CATEGORIES.any (fun base => lowerStr base == lowerStr c))))
          pinnedMealIds := payload.pinnedMealIds.getD []
          weekPlans := normalizedPlans
          currentWeekStartDate := payload.currentWeekStartDate
          inventorySort := .category }
  | _, _, _ => s

/-- The history-wrapped mutating planner commands the claims quantify
over. -/
inductive Command
  | adjustIngredientCount (id : String) (delta : ℚ)
  | dropIngredientToCell (addr : SlotAddress) (ingredientId : String)
  | dropMealToCell (addr : SlotAddress) (mealId : String)
  | moveOrSwapCell (source target : SlotAddress)
  | clearCell (addr : SlotAddress)
  | removeCellToInventory (addr : SlotAddress)
  | makeLeftovers (addr : SlotAddress)
  | setCellServings (addr : SlotAddress) (servings : ℚ)
  | mergeReceiptItems (items : List ReceiptDraftItem)
  | addProfile (name color : String)
  | importState (payload : ImportPayload)

/-- Command dispatch. -/
def applyCommand (env : Env) (c : Command) (s : PlannerState) : PlannerState :=
  match c with
  | .adjustIngredientCount id delta => adjustIngredientCount s id delta
  | .dropIngredientToCell addr ingredientId => dropIngredientToCell s addr ingredientId
  | .dropMealToCell addr mealId => dropMealToCell s addr mealId
  | .moveOrSwapCell source target => moveOrSwapCell s source target
  | .clearCell addr => clearCell s addr
  | .removeCellToInventory addr => removeCellToInventory s addr
  | .makeLeftovers addr => makeLeftovers s addr
  | .setCellServings addr servings => setCellServings s addr servings
  | .mergeReceiptItems items => mergeReceiptItems env s items
  | .addProfile name color => addProfile env s name color
  | .importState payload => importState env s payload

/-- A step of the full engine: a mutating command, or undo, or redo. -/
inductive Step
  | cmd (c : Command)
  | stepUndo
  | stepRedo

/-- Step dispatch. -/
def applyStep (env : Env) (st : Step) (s : PlannerState) : PlannerState :=
  match st with
  | .cmd c => applyCommand env c s
  | .stepUndo => undo s
  | .stepRedo => redo s

/-! ## Basic facts about the embedded helpers -/

@[simp]
theorem copyRef_id (r : IngredientRef) : copyRef r = r := rfl

theorem copyRef_eq_id : copyRef = id := funext copyRef_id

@[simp]
theorem cloneSlotEntry_id (e : SlotEntry) : cloneSlotEntry e = e := by
  cases e with
  | mk mealId adHocMealName ingredientRefs servings notes isLeftovers =>
    simp [cloneSlotEntry, copyRef_eq_id]

@[simp]
theorem cloneSlot_id (o : Option SlotEntry) : cloneSlot o = o := by
  cases o <;> simp [cloneSlot]

theorem cloneSlot_eq_id : cloneSlot = id := funext cloneSlot_id

@[simp]
theorem cloneCell_id (c : Option CellEntry) : cloneCell c = c := by
  cases c with
  | none => rfl
  | some cell =>
    cases cell with
    | mk family profiles =>
      simp [cloneCell]

theorem cloneCell_eq_id : cloneCell = id := funext cloneCell_id

@[simp]
theorem clonePlan_id (p : WeekPlan) : clonePlan p = p := by
  cases p with
  | mk weekStartDate grid =>
    cases grid with
    | mk b l d s => simp [clonePlan, cloneCell_eq_id]

/-- `roundCount` moves a value by at most half a cent. -/
theorem abs_roundCount_sub_le (q : ℚ) : |roundCount q - q| ≤ 1/200 := by
  rw [abs_le]
  have h1 : (⌊q * 100 + 1/2⌋ : ℚ) ≤ q * 100 + 1/2 := Int.floor_le _
  have h2 : q * 100 + 1/2 - 1 < (⌊q * 100 + 1/2⌋ : ℚ) := Int.sub_one_lt_floor _
  constructor
  · rw [roundCount, jround]
    rw [div_sub' _ _ _ (by norm_num : (100 : ℚ) ≠ 0)]
    rw [le_div_iff₀ (by norm_num : (0 : ℚ) < 100)]
    linarith
  · rw [roundCount, jround]
    rw [div_sub' _ _ _ (by norm_num : (100 : ℚ) ≠ 0)]
    rw [div_le_iff₀ (by norm_num : (0 : ℚ) < 100)]
    linarith

/-- `roundCount` preserves non-negativity. -/
theorem roundCount_nonneg {q : ℚ} (h : 0 ≤ q) : 0 ≤ roundCount q := by
  have hfl : (0 : ℤ) ≤ ⌊q * 100 + 1/2⌋ := by
    rw [Int.floor_nonneg]
    nlinarith
  rw [roundCount, jround]
  have : (0 : ℚ) ≤ (⌊q * 100 + 1/2⌋ : ℚ) := by exact_mod_cast hfl
  linarith

/-- `roundCount` is the identity on exact multiples of `1/100`. -/
theorem roundCount_intCast_div (n : ℤ) : roundCount ((n : ℚ) / 100) = (n : ℚ) / 100 := by
  rw [roundCount, jround]
  have : (n : ℚ) / 100 * 100 = (n : ℚ) := by field_simp
  rw [this]
  have hfl : ⌊(n : ℚ) + 1/2⌋ = n := by
    rw [Int.floor_eq_iff]
    constructor <;> push_cast <;> norm_num
  rw [hfl]

/-- The normalized servings-per-count factor is positive. -/
theorem normalizeServingsPerCount_pos (v : Option ℚ) : 0 < normalizeServingsPerCount v := by
  cases v with
  | none => norm_num [normalizeServingsPerCount]
  | some x =>
    by_cases hx : x = 0
    · simp [normalizeServingsPerCount, hx]
    · rw [normalizeServingsPerCount, if_neg hx]
      exact lt_max_iff.mpr (Or.inl (by norm_num))

/-! ## Association-list and grid lemmas -/

theorem lookupAssoc_cons {α : Type} (q : String × α) (rest : List (String × α)) (k : String) :
    lookupAssoc (q :: rest) k = if q.1 == k then some q.2 else lookupAssoc rest k := by
  by_cases hq : (q.1 == k) = true
  · simp [lookupAssoc, List.find?_cons_of_pos _ hq, hq]
  · have hq2 : ¬((fun (p : String × α) => p.1 == k) q) = true := by simpa using hq
    simp [lookupAssoc, @List.find?_cons_of_neg _ (fun p => p.1 == k) q rest hq2, hq]

theorem updAssoc_cons {α : Type} (q : String × α) (rest : List (String × α)) (k : String) (v : α) :
    updAssoc (q :: rest) k v =
      if q.1 == k then (k, v) :: rest.map (fun p => if p.1 == k then (k, v) else p)
      else q :: updAssoc rest k v := by
  by_cases hq : (q.1 == k) = true
  · have hany : ((q :: rest).any (fun p => p.1 == k)) = true := by
      simp [List.any_cons, hq]
    rw [updAssoc, if_pos hany, if_pos hq, List.map_cons, if_pos hq]
  · have hany : ((q :: rest).any (fun p => p.1 == k)) = rest.any (fun p => p.1 == k) := by
      simp [List.any_cons, hq]
    rw [updAssoc, hany, if_neg hq, updAssoc]
    by_cases hr : (rest.any (fun p => p.1 == k)) = true
    · rw [if_pos hr, if_pos hr, List.map_cons, if_neg hq]
    · rw [if_neg hr, if_neg hr, List.cons_append]

theorem lookupAssoc_updAssoc_self {α : Type} (l : List (String × α)) (k : String) (v : α) :
    lookupAssoc (updAssoc l k v) k = some v := by
  induction l with
  | nil =>
    rw [updAssoc]
    simp [lookupAssoc, List.find?]
  | cons q rest ih =>
    rw [updAssoc_cons]
    by_cases hq : (q.1 == k) = true
    · rw [if_pos hq, lookupAssoc_cons]
      simp
    · rw [if_neg hq, lookupAssoc_cons, if_neg hq]
      exact ih

theorem lookupAssoc_mapUpdate_ne {α : Type} (l : List (String × α)) (k k2 : String) (v : α)
    (hne : k2 ≠ k) :
    lookupAssoc (l.map (fun p => if p.1 == k then (k, v) else p)) k2 = lookupAssoc l k2 := by
  induction l with
  | nil => rfl
  | cons q rest ih =>
    rw [List.map_cons]
    by_cases hq : (q.1 == k) = true
    · rw [if_pos hq, lookupAssoc_cons, lookupAssoc_cons]
      have h1 : ¬((k, v).1 == k2) = true := by
        simp only [beq_iff_eq]
        exact fun h => hne h.symm
      have h2 : ¬(q.1 == k2) = true := by
        simp only [beq_iff_eq] at hq ⊢
        rw [hq]
        exact fun h => hne h.symm
      rw [if_neg h1, if_neg h2]
      exact ih
    · rw [if_neg hq, lookupAssoc_cons, lookupAssoc_cons]
      by_cases hq2 : (q.1 == k2) = true
      · rw [if_pos hq2, if_pos hq2]
      · rw [if_neg hq2, if_neg hq2]
        exact ih

theorem lookupAssoc_append_singleton_ne {α : Type} (l : List (String × α)) (k k2 : String)
    (v : α) (hne : k2 ≠ k) :
    lookupAssoc (l ++ [(k, v)]) k2 = lookupAssoc l k2 := by
  induction l with
  | nil =>
    have h1 : ¬((k, v).1 == k2) = true := by
      simp only [beq_iff_eq]
      exact fun h => hne h.symm
    simp [lookupAssoc, List.find?, h1]
  | cons q rest ih =>
    rw [List.cons_append, lookupAssoc_cons, lookupAssoc_cons]
    by_cases hq2 : (q.1 == k2) = true
    · rw [if_pos hq2, if_pos hq2]
    · rw [if_neg hq2, if_neg hq2]
      exact ih

theorem lookupAssoc_updAssoc_ne {α : Type} (l : List (String × α)) (k k2 : String) (v : α)
    (hne : k2 ≠ k) : lookupAssoc (updAssoc l k v) k2 = lookupAssoc l k2 := by
  rw [updAssoc]
  by_cases h : (l.any (fun p => p.1 == k)) = true
  · rw [if_pos h]
    exact lookupAssoc_mapUpdate_ne l k k2 v hne
  · rw [if_neg h]
    exact lookupAssoc_append_singleton_ne l k k2 v hne

theorem ensurePlan_of_mem (wp : List (String × WeekPlan)) (k : String)
    (h : (lookupAssoc wp k).isSome) : ensurePlan wp k = wp := by
  rw [ensurePlan, if_pos h]

theorem currentPlanOf_updAssoc (wp : List (String × WeekPlan)) (k : String) (p : WeekPlan) :
    currentPlanOf (updAssoc wp k p) k = p := by
  rw [currentPlanOf, lookupAssoc_updAssoc_self]
  rfl

theorem lookupAssoc_updAssoc_isSome {α : Type} (l : List (String × α)) (k : String) (v : α) :
    (lookupAssoc (updAssoc l k v) k).isSome := by
  rw [lookupAssoc_updAssoc_self]
  rfl

theorem WeekGrid.row_setRow_self (g : WeekGrid) (mt : MealType) (r : List (Option CellEntry)) :
    (g.setRow mt r).row mt = r := by
  cases mt <;> rfl

theorem WeekGrid.row_setRow_ne (g : WeekGrid) (mt mt2 : MealType) (r : List (Option CellEntry))
    (h : mt2 ≠ mt) : (g.setRow mt r).row mt2 = g.row mt2 := by
  cases mt <;> cases mt2 <;> first | rfl | exact absurd rfl h

theorem List.getD_set_self {α : Type} (l : List α) (n : Nat) (v d : α) (h : n < l.length) :
    (l.set n v).getD n d = v := by
  induction l generalizing n with
  | nil => cases h
  | cons a rest ih =>
    cases n with
    | zero => rfl
    | succ m =>
      simp only [List.set, List.getD, List.get?]
      exact ih m (by simpa using h)

theorem List.getD_set_ne {α : Type} (l : List α) (n m : Nat) (v d : α) (h : m ≠ n) :
    (l.set n v).getD m d = l.getD m d := by
  induction l generalizing n m with
  | nil => cases n <;> rfl
  | cons a rest ih =>
    cases n with
    | zero =>
      cases m with
      | zero => exact absurd rfl h
      | succ m2 => rfl
    | succ n2 =>
      cases m with
      | zero => rfl
      | succ m2 =>
        simp only [List.set, List.getD, List.get?]
        exact ih n2 m2 (fun he => h (by rw [he]))

theorem getCell_putCell_same (plan : WeekPlan) (a b : SlotAddress) (v : Option CellEntry)
    (hm : b.mealType = a.mealType) (hd : b.day = a.day)
    (hday : a.day < (plan.grid.row a.mealType).length) :
    getCell (putCell plan a v) b = v := by
  rw [getCell, putCell, hm, hd]
  simp only [WeekGrid.row_setRow_self]
  exact List.getD_set_self _ _ _ _ hday

theorem getCell_putCell_diff (plan : WeekPlan) (a b : SlotAddress) (v : Option CellEntry)
    (h : b.mealType ≠ a.mealType ∨ b.day ≠ a.day) :
    getCell (putCell plan a v) b = getCell plan b := by
  rw [getCell, putCell, getCell]
  rcases h with h | h
  · simp only [WeekGrid.row_setRow_ne _ _ _ _ h]
  · by_cases hm : b.mealType = a.mealType
    · rw [hm]
      simp only [WeekGrid.row_setRow_self]
      exact List.getD_set_ne _ _ _ _ _ h
    · simp only [WeekGrid.row_setRow_ne _ _ _ _ hm]

/-- The slot-level view of an optional cell at an address (proof-layer
abbreviation for the read side of `getSlot`). -/
def cellSlot (cell : Option CellEntry) (a : SlotAddress) : Option SlotEntry :=
  match cell with
  | none => none
  | some c =>
    match a.targetType with
    | .family => c.family
    | .profile =>
      match a.profileId with
      | none => none
      | some pid => (lookupAssoc c.profiles pid).getD none

theorem getSlot_eq_cellSlot (plan : WeekPlan) (a : SlotAddress) :
    getSlot plan a = cellSlot (getCell plan a) a := by
  unfold getSlot cellSlot
  cases getCell plan a with
  | none => rfl
  | some c =>
    cases a.targetType with
    | family => simp
    | profile =>
      cases a.profileId with
      | none => rfl
      | some pid => simp

theorem lookupAssoc_getD_none_of_all_none (l : List (String × Option SlotEntry)) (pid : String)
    (h : l.any (fun p => p.2.isSome) = false) : (lookupAssoc l pid).getD none = none := by
  rw [lookupAssoc]
  cases hf : l.find? (fun p => p.1 == pid) with
  | none => rfl
  | some q =>
    have hmem := List.mem_of_find?_eq_some hf
    have : q.2.isSome = false := by
      rw [List.any_eq_false] at h
      have := h q hmem
      simpa using this
    simp only [Option.map_some']
    cases hq : q.2 with
    | none => rfl
    | some e => rw [hq] at this; simp at this

theorem cellSlot_of_collapsed (nextCell : CellEntry) (a : SlotAddress)
    (h : (nextCell.family.isSome || nextCell.profiles.any (fun p => p.2.isSome)) = false) :
    cellSlot (some nextCell) a = none := by
  rw [Bool.or_eq_false_iff] at h
  rw [cellSlot]
  cases a.targetType with
  | family =>
    cases hf : nextCell.family with
    | none => rfl
    | some e => rw [hf] at h; simp at h
  | profile =>
    cases a.profileId with
    | none => rfl
    | some pid => exact lookupAssoc_getD_none_of_all_none _ _ h.2

/-- The cell value `setSlot` stores (proof-layer refactoring of the
write side of `setSlot`). -/
def setCellValue (cell : Option CellEntry) (a : SlotAddress) (value : Option SlotEntry) :
    Option CellEntry :=
  let existing := cell.getD { family := none, profiles := [] }
  let nextCell : CellEntry := { family := cloneSlot existing.family, profiles := existing.profiles }
  let nextCell :=
    match a.targetType with
    | .family => { nextCell with family := cloneSlot value }
    | .profile =>
      match a.profileId with
      | some pid => { nextCell with profiles := updAssoc nextCell.profiles pid (cloneSlot value) }
      | none => nextCell
  let hasAnyProfile := nextCell.profiles.any (fun p => p.2.isSome)
  let hasAny := nextCell.family.isSome || hasAnyProfile
  if hasAny then some nextCell else none

theorem setSlot_eq_putCell (plan : WeekPlan) (a : SlotAddress) (v : Option SlotEntry) :
    setSlot plan a v = putCell plan a (setCellValue (getCell plan a) a v) := rfl

theorem getCell_congr (plan : WeekPlan) (a b : SlotAddress)
    (hm : a.mealType = b.mealType) (hd : a.day = b.day) : getCell plan a = getCell plan b := by
  rw [getCell, getCell, hm, hd]

theorem cellSlot_family (cell : Option CellEntry) (a : SlotAddress)
    (ht : a.targetType = TargetType.family) :
    cellSlot cell a = (cell.getD { family := none, profiles := [] }).family := by
  cases cell <;> simp [cellSlot, ht]

theorem cellSlot_profile (cell : Option CellEntry) (a : SlotAddress) (pid : String)
    (ht : a.targetType = TargetType.profile) (hp : a.profileId = some pid) :
    cellSlot cell a =
      (lookupAssoc (cell.getD { family := none, profiles := [] }).profiles pid).getD none := by
  cases cell <;> simp [cellSlot, ht, hp, lookupAssoc]

theorem cellSlot_profile_none (cell : Option CellEntry) (a : SlotAddress)
    (ht : a.targetType = TargetType.profile) (hp : a.profileId = none) :
    cellSlot cell a = none := by
  cases cell <;> simp [cellSlot, ht, hp]

theorem cellSlot_setCellValue_self (cell : Option CellEntry) (a : SlotAddress)
    (v : Option SlotEntry) (hwf : a.targetType = TargetType.family ∨ a.profileId.isSome) :
    cellSlot (setCellValue cell a v) a = v := by
  cases ht : a.targetType with
  | family =>
    simp only [setCellValue, ht, cloneSlot_id]
    by_cases hany : (v.isSome ||
        ((cell.getD { family := none, profiles := [] }).profiles.any (fun p => p.2.isSome))) = true
    · rw [if_pos hany, cellSlot_family _ _ ht]
      rfl
    · rw [if_neg hany]
      rw [Bool.not_eq_true, Bool.or_eq_false_iff] at hany
      rw [cellSlot]
      cases hv : v with
      | none => rfl
      | some e => rw [hv] at hany; simp at hany
  | profile =>
    cases hp : a.profileId with
    | none =>
      rcases hwf with h | h
      · rw [ht] at h; cases h
      · rw [hp] at h; simp at h
    | some pid =>
      simp only [setCellValue, ht, hp, cloneSlot_id]
      by_cases hany : (((cell.getD { family := none, profiles := [] }).family).isSome ||
          ((updAssoc (cell.getD { family := none, profiles := [] }).profiles pid v).any
            (fun p => p.2.isSome))) = true
      · rw [if_pos hany, cellSlot_profile _ _ pid ht hp]
        simp only [Option.getD_some]
        rw [lookupAssoc_updAssoc_self]
        rfl
      · rw [if_neg hany]
        rw [Bool.not_eq_true, Bool.or_eq_false_iff] at hany
        have hv : v = none := by
          have hl := lookupAssoc_updAssoc_self
            (cell.getD { family := none, profiles := [] }).profiles pid v
          rw [lookupAssoc] at hl
          cases hf : ((updAssoc (cell.getD { family := none, profiles := [] }).profiles pid v).find?
              (fun p => p.1 == pid)) with
          | none => rw [hf] at hl; cases hl
          | some q =>
            rw [hf] at hl
            have hmem := List.mem_of_find?_eq_some hf
            have hfalse : q.2.isSome = false := by
              have h2 := hany.2
              rw [List.any_eq_false] at h2
              have := h2 q hmem
              simpa using this
            simp only [Option.map_some'] at hl
            cases hl
            cases hq : q.2 with
            | none => rfl
            | some e => rw [hq] at hfalse; simp at hfalse
        rw [hv, cellSlot]

theorem cellSlot_setCellValue_ne (cell : Option CellEntry) (a b : SlotAddress)
    (v : Option SlotEntry) (hkey : slotKey a ≠ slotKey b) :
    cellSlot (setCellValue cell b v) a = cellSlot cell a := by
  cases ha : a.targetType with
  | family =>
    rw [cellSlot_family _ _ ha, cellSlot_family _ _ ha]
    cases hb : b.targetType with
    | family =>
      exact absurd (by rw [slotKey, slotKey, ha, hb]) hkey
    | profile =>
      cases hpb : b.profileId with
      | some pid =>
        simp only [setCellValue, hb, hpb, cloneSlot_id]
        by_cases hany : (((cell.getD { family := none, profiles := [] }).family).isSome ||
            ((updAssoc (cell.getD { family := none, profiles := [] }).profiles pid v).any
              (fun p => p.2.isSome))) = true
        · rw [if_pos hany]
          rfl
        · rw [if_neg hany]
          rw [Bool.not_eq_true, Bool.or_eq_false_iff] at hany
          have h1 := hany.1
          cases hf : (cell.getD { family := none, profiles := [] }).family with
          | none => rfl
          | some e => rw [hf] at h1; simp at h1
      | none =>
        simp only [setCellValue, hb, hpb, cloneSlot_id]
        by_cases hany : (((cell.getD { family := none, profiles := [] }).family).isSome ||
            ((cell.getD { family := none, profiles := [] }).profiles.any
              (fun p => p.2.isSome))) = true
        · rw [if_pos hany]
          rfl
        · rw [if_neg hany]
          rw [Bool.not_eq_true, Bool.or_eq_false_iff] at hany
          have h1 := hany.1
          cases hf : (cell.getD { family := none, profiles := [] }).family with
          | none => rfl
          | some e => rw [hf] at h1; simp at h1
  | profile =>
    cases hpa : a.profileId with
    | none =>
      rw [cellSlot_profile_none _ _ ha hpa, cellSlot_profile_none _ _ ha hpa]
    | some pidA =>
      rw [cellSlot_profile _ _ pidA ha hpa, cellSlot_profile _ _ pidA ha hpa]
      cases hb : b.targetType with
      | family =>
        simp only [setCellValue, hb, cloneSlot_id]
        by_cases hany : (v.isSome ||
            ((cell.getD { family := none, profiles := [] }).profiles.any
              (fun p => p.2.isSome))) = true
        · rw [if_pos hany]
          rfl
        · rw [if_neg hany]
          rw [Bool.not_eq_true, Bool.or_eq_false_iff] at hany
          exact (lookupAssoc_getD_none_of_all_none _ _ hany.2).symm
      | profile =>
        cases hpb : b.profileId with
        | none =>
          simp only [setCellValue, hb, hpb, cloneSlot_id]
          by_cases hany : (((cell.getD { family := none, profiles := [] }).family).isSome ||
              ((cell.getD { family := none, profiles := [] }).profiles.any
                (fun p => p.2.isSome))) = true
          · rw [if_pos hany]
            rfl
          · rw [if_neg hany]
            rw [Bool.not_eq_true, Bool.or_eq_false_iff] at hany
            exact (lookupAssoc_getD_none_of_all_none _ _ hany.2).symm
        | some pidB =>
          have hpp : pidA ≠ pidB := by
            intro he
            apply hkey
            rw [slotKey, slotKey, ha, hb, hpa, hpb, he]
          simp only [setCellValue, hb, hpb, cloneSlot_id]
          by_cases hany : (((cell.getD { family := none, profiles := [] }).family).isSome ||
              ((updAssoc (cell.getD { family := none, profiles := [] }).profiles pidB v).any
                (fun p => p.2.isSome))) = true
          · rw [if_pos hany]
            show (lookupAssoc (updAssoc _ pidB v) pidA).getD none = _
            rw [lookupAssoc_updAssoc_ne _ _ _ _ hpp]
          · rw [if_neg hany]
            rw [Bool.not_eq_true, Bool.or_eq_false_iff] at hany
            have h2 := lookupAssoc_getD_none_of_all_none
              (updAssoc (cell.getD { family := none, profiles := [] }).profiles pidB v) pidA hany.2
            rw [lookupAssoc_updAssoc_ne _ _ _ _ hpp] at h2
            exact h2.symm

/-- `getSlot` after `setSlot` at the same address reads back the written
value (well-formed address, day within the row). -/
theorem getSlot_setSlot_self (plan : WeekPlan) (a : SlotAddress) (v : Option SlotEntry)
    (hwf : a.targetType = TargetType.family ∨ a.profileId.isSome)
    (hday : a.day < (plan.grid.row a.mealType).length) :
    getSlot (setSlot plan a v) a = v := by
  rw [setSlot_eq_putCell, getSlot_eq_cellSlot,
    getCell_putCell_same plan a a _ rfl rfl hday,
    cellSlot_setCellValue_self _ _ _ hwf]

/-- `setSlot` does not disturb the slot at a different target: another
cell entirely, or the same cell under a different slot key. -/
theorem WeekGrid.setRow_row_self (g : WeekGrid) (mt : MealType) :
    g.setRow mt (g.row mt) = g := by
  cases g
  cases mt <;> rfl

theorem putCell_out_of_range (plan : WeekPlan) (b : SlotAddress) (c : Option CellEntry)
    (h : ¬b.day < (plan.grid.row b.mealType).length) :
    putCell plan b c = plan := by
  rw [putCell, List.set_eq_of_length_le (Nat.le_of_not_lt h), WeekGrid.setRow_row_self]

/-- `setSlot` does not disturb the slot at a different target: another
cell entirely, or the same cell under a different slot key. -/
theorem getSlot_setSlot_ne (plan : WeekPlan) (a b : SlotAddress) (v : Option SlotEntry)
    (h : (a.mealType ≠ b.mealType ∨ a.day ≠ b.day) ∨
      (a.mealType = b.mealType ∧ a.day = b.day ∧ slotKey a ≠ slotKey b)) :
    getSlot (setSlot plan b v) a = getSlot plan a := by
  rw [setSlot_eq_putCell, getSlot_eq_cellSlot, getSlot_eq_cellSlot]
  rcases h with h | ⟨hm, hd, hkey⟩
  · rw [getCell_putCell_diff plan b a _ (by tauto)]
  · by_cases hlen : b.day < (plan.grid.row b.mealType).length
    · rw [getCell_putCell_same plan b a _ hm hd hlen, cellSlot_setCellValue_ne _ _ _ _ hkey,
        getCell_congr plan b a hm.symm hd.symm]
    · rw [putCell_out_of_range plan b _ hlen]

/-! ## History lemmas -/

theorem takeLast_concat {α : Type} (n : Nat) (hn : 0 < n) (l : List α) (x : α) :
    takeLast n (l ++ [x]) = (l.drop (l.length + 1 - n)) ++ [x] := by
  rw [takeLast, List.length_append, List.drop_append_eq_append_drop]
  have hk : l.length + [x].length - n ≤ l.length := by
    simp only [List.length_singleton]
    omega
  have hz : l.length + [x].length - n - l.length = 0 := by omega
  rw [hz, List.drop_zero]
  simp only [List.length_singleton]

theorem takeLast_of_le {α : Type} (n : Nat) (l : List α) (h : l.length ≤ n) :
    takeLast n l = l := by
  rw [takeLast]
  have : l.length - n = 0 := by omega
  rw [this, List.drop_zero]

theorem snapshotFromState_restoreSnapshot (sn : PlannerSnapshot)
    (past future : List PlannerSnapshot) :
    snapshotFromState (restoreSnapshot sn past future) = sn := rfl

theorem restoreSnapshot_self (u : PlannerState) :
    restoreSnapshot (snapshotFromState u) u.past u.future = u := rfl

/-- `undo` then `redo` lands back on the same state, for any state whose
history stacks have just been produced by `commitWithHistory`. -/
theorem redo_undo_of_commit (s s1 : PlannerState)
    (hp : s1.past = takeLast HISTORY_LIMIT (s.past ++ [snapshotFromState s]))
    (hf : s1.future = []) : redo (undo s1) = s1 := by
  have hpast : s1.past =
      (s.past.drop (s.past.length + 1 - HISTORY_LIMIT)) ++ [snapshotFromState s] :=
    hp.trans (takeLast_concat HISTORY_LIMIT (by norm_num [HISTORY_LIMIT]) _ _)
  have hlast : s1.past.getLast? = some (snapshotFromState s) := by
    rw [hpast]
    exact List.getLast?_concat _
  have hundo : undo s1 =
      restoreSnapshot (snapshotFromState s) s1.past.dropLast [snapshotFromState s1] := by
    unfold undo
    rw [hlast, hf, List.take_of_length_le (by simp [HISTORY_LIMIT])]
  rw [hundo]
  have hredo : redo (restoreSnapshot (snapshotFromState s) s1.past.dropLast
      [snapshotFromState s1]) =
      restoreSnapshot (snapshotFromState s1)
        (takeLast HISTORY_LIMIT (s1.past.dropLast ++ [snapshotFromState s])) [] := rfl
  rw [hredo]
  have hrecomb : s1.past.dropLast ++ [snapshotFromState s] = s1.past := by
    rw [hpast, List.dropLast_concat]
  rw [hrecomb]
  have hlen : s1.past.length ≤ HISTORY_LIMIT := by
    rw [hpast, List.length_append, List.length_drop]
    simp only [List.length_singleton, HISTORY_LIMIT]
    omega
  rw [takeLast_of_le _ _ hlen, ← hf, restoreSnapshot_self]

/-- C5's claim theorem relies on every mutating command either leaving
the state untouched (its no-op guard) or ending in a single
`commitWithHistory`, recognizable from its history stacks. -/
theorem applyCommand_shape (env : Env) (c : Command) (s : PlannerState) :
    applyCommand env c s = s ∨
      ((applyCommand env c s).past = takeLast HISTORY_LIMIT (s.past ++ [snapshotFromState s]) ∧
        (applyCommand env c s).future = []) := by
  cases c with
  | adjustIngredientCount id delta => exact Or.inr ⟨rfl, rfl⟩
  | dropIngredientToCell addr iid =>
    cases hf : s.ingredients.find? (fun item => item.id == iid) with
    | none =>
      left
      simp only [applyCommand, dropIngredientToCell, hf]
    | some ing =>
      right
      simp only [applyCommand, dropIngredientToCell, hf]
      exact ⟨rfl, rfl⟩
  | dropMealToCell addr mid =>
    cases hf : s.meals.find? (fun item => item.id == mid) with
    | none =>
      left
      simp only [applyCommand, dropMealToCell, hf]
    | some meal =>
      right
      simp only [applyCommand, dropMealToCell, hf]
      exact ⟨rfl, rfl⟩
  | moveOrSwapCell a b =>
    by_cases hg : (slotKey a == slotKey b && a.day == b.day && a.mealType == b.mealType) = true
    · left
      simp only [applyCommand, moveOrSwapCell, hg, if_true]
    · cases hf : getSlot (clonePlan (currentPlanOf (ensurePlan s.weekPlans s.currentWeekStartDate)
          s.currentWeekStartDate)) a with
      | none =>
        left
        simp only [applyCommand, moveOrSwapCell, hg, Bool.false_eq_true, if_false, ite_self, hf]
      | some e =>
        right
        simp only [applyCommand, moveOrSwapCell, hg, Bool.false_eq_true, if_false, hf]
        exact ⟨rfl, rfl⟩
  | clearCell addr => exact Or.inr ⟨rfl, rfl⟩
  | removeCellToInventory addr =>
    cases hf : getSlot (clonePlan (currentPlanOf (ensurePlan s.weekPlans s.currentWeekStartDate)
        s.currentWeekStartDate)) addr with
    | none =>
      left
      simp only [applyCommand, removeCellToInventory, hf]
    | some slot =>
      right
      simp only [applyCommand, removeCellToInventory, hf]
      exact ⟨rfl, rfl⟩
  | makeLeftovers addr =>
    by_cases hd : addr.day ≥ 6
    · left
      simp only [applyCommand, makeLeftovers, hd, if_true]
    · cases hf : getSlot (clonePlan (currentPlanOf (ensurePlan s.weekPlans s.currentWeekStartDate)
          s.currentWeekStartDate)) addr with
      | none =>
        left
        simp only [applyCommand, makeLeftovers, hd, if_false, ite_self, hf]
      | some e =>
        right
        simp only [applyCommand, makeLeftovers, hd, if_false, hf]
        exact ⟨rfl, rfl⟩
  | setCellServings addr servings =>
    cases hf : getSlot (clonePlan (currentPlanOf (ensurePlan s.weekPlans s.currentWeekStartDate)
        s.currentWeekStartDate)) addr with
    | none =>
      left
      simp only [applyCommand, setCellServings, hf]
    | some original =>
      right
      simp only [applyCommand, setCellServings, hf]
      exact ⟨rfl, rfl⟩
  | mergeReceiptItems items => exact Or.inr ⟨rfl, rfl⟩
  | addProfile name color => exact Or.inr ⟨rfl, rfl⟩
  | importState payload =>
    cases hi : payload.ingredients with
    | none =>
      left
      simp only [applyCommand, importState, hi]
    | some pi0 =>
      cases hm : payload.meals with
      | none =>
        left
        simp only [applyCommand, importState, hi, hm]
      | some pm0 =>
        cases hw : payload.weekPlans with
        | none =>
          left
          simp only [applyCommand, importState, hi, hm, hw]
        | some pw0 =>
          by_cases hc : payload.currentWeekStartDate = ""
          · left
            simp only [applyCommand, importState, hi, hm, hw, hc, if_true]
          · right
            simp only [applyCommand, importState, hi, hm, hw, hc, if_false]
            exact ⟨rfl, rfl⟩

/-! ## Concrete fixtures used by the scenario parts of the claims -/

/-- A sample environment (id suffixes r, ri, rii, …). -/
def envA : Env := { ids := fun n => "r" ++ String.mk (List.replicate n 'i'), now := "t1" }

/-- A second sample environment with different random draws. -/
def envB : Env := { ids := fun n => "s" ++ String.mk (List.replicate n 'i'), now := "t1" }

/-- Ingredient fixture with the fields the engine reads. -/
def mkIng (id name : String) (count : ℚ) (spc : Option ℚ) : Ingredient :=
  { id := id, name := name, category := "Other", count := count
    servingsPerCount := spc, createdAt := "t0" }

/-- Minimal state fixture: one profile, a given ledger and meal list,
no planned week yet. -/
def mkState (ings : List Ingredient) (meals : List Meal) : PlannerState :=
  { ingredients := ings, meals := meals
    profiles := [{ id := "p1", name := "Me", color := "#fff", createdAt := "t0" }]
    customCategories := [], pinnedMealIds := [], weekPlans := []
    currentWeekStartDate := "w1", inventorySort := .category, past := [], future := [] }

/-- The family dinner slot of day 0. -/
def dinner0 : SlotAddress := { mealType := .dinner, day := 0, targetType := .family }

/-- The family dinner slot of day 1. -/
def dinner1 : SlotAddress := { mealType := .dinner, day := 1, targetType := .family }

/-- Ledger `{chicken: 4}` of the specification's scenario. -/
def chickenState : PlannerState := mkState [mkIng "c" "chicken" 4 (some 1)] []

/-- Like `chickenState` but with zero stock. -/
def chickenState0 : PlannerState := mkState [mkIng "c" "chicken" 0 (some 1)] []

/-- A slot holding qty 4 of rice at 2 servings (rescale scenario). -/
def riceSlot : SlotEntry :=
  { ingredientRefs := [{ ingredientId := some "r", name := "rice", qty := 4 }], servings := 2 }

/-- Rescale-scenario state: rice stock `c`, `riceSlot` planned at the
day-0 family dinner. -/
def riceState (c : ℚ) : PlannerState :=
  let s := mkState [mkIng "r" "rice" c (some 1)] []
  { s with weekPlans := [("w1", setSlot (createEmptyWeekPlan "w1") dinner0 (some riceSlot))] }

/-! ## C5 -/

/-- C5: for every mutating command C and state S (i.e. whenever applying
C actually changed the state), `apply C; undo; redo` yields exactly the
state of `apply C` alone: undo pops the just-pushed snapshot and stashes
the current state on `future`, redo mirrors it back. -/
theorem claim_C5 (env : Env) (c : Command) (s : PlannerState)
    (hmut : applyCommand env c s ≠ s) :
    redo (undo (applyCommand env c s)) = applyCommand env c s := by
  rcases applyCommand_shape env c s with h | ⟨hp, hfut⟩
  · exact absurd h hmut
  · exact redo_undo_of_commit s _ hp hfut

/-- Witness for C5: dropping chicken into the day-0 dinner slot is a
mutating command, and apply–undo–redo reproduces its result. -/
theorem claim_C5_witness :
    applyCommand envA (Command.dropIngredientToCell dinner0 "c") chickenState ≠ chickenState ∧
      redo (undo (applyCommand envA (Command.dropIngredientToCell dinner0 "c") chickenState)) =
        applyCommand envA (Command.dropIngredientToCell dinner0 "c") chickenState := by
  have hmut : applyCommand envA (Command.dropIngredientToCell dinner0 "c") chickenState ≠
      chickenState :=
    fun h => absurd (congrArg (fun st => st.past.length) h) (by decide)
  exact ⟨hmut, claim_C5 envA (Command.dropIngredientToCell dinner0 "c") chickenState hmut⟩

/-! ## C10 -/

/-- Which commands mint fresh ids / timestamps (and therefore read the
reified `Math.random()` / `Date` environment). -/
def mintsIds : Command → Bool
  | .mergeReceiptItems _ => true
  | .addProfile _ _ => true
  | .importState _ => true
  | _ => false

/-- C10 (amended): commands that mint no ids are pure functions of
(state, command): the result does not depend on the hidden-input
environment at all, so two runs from deep-equal states agree. -/
theorem claim_C10 (c : Command) (h : mintsIds c = false) (env1 env2 : Env) (s : PlannerState) :
    applyCommand env1 c s = applyCommand env2 c s := by
  cases c <;> first
    | rfl
    | simp [mintsIds] at h

/-- Witness for C10: `clearCell` runs identically under two different
environments. -/
theorem claim_C10_witness :
    mintsIds (Command.clearCell dinner0) = false ∧
      applyCommand envA (Command.clearCell dinner0) chickenState =
        applyCommand envB (Command.clearCell dinner0) chickenState :=
  ⟨rfl, claim_C10 (Command.clearCell dinner0) rfl envA envB chickenState⟩

/-- Counterexample for C10 as stated: `addProfile` reads the hidden
random-id input, so the same command on deep-equal states yields
different results under different draws — commands are not pure
functions of (state, command) alone. -/
theorem claim_C10_counterexample :
    applyCommand envA (Command.addProfile "Bob" "#abc") chickenState ≠
      applyCommand envB (Command.addProfile "Bob" "#abc") chickenState :=
  fun h => absurd (congrArg (fun st => st.profiles.map (fun p => p.id)) h) (by decide)

/-! ## C4 -/

/-- Draft item "Egg" ×12 (first import of the merge scenario). -/
def eggImport1 : ReceiptDraftItem := { id := "d1", name := "Egg", category := "Dairy", count := 12 }

/-- Draft item "eggs" ×1 (the spec scenario's second import). -/
def eggImport2 : ReceiptDraftItem := { id := "d2", name := "eggs", category := "Dairy", count := 1 }

/-- Draft item "EGG" ×1 (same canonical name as "Egg" under the
implemented normalization). -/
def eggImport3 : ReceiptDraftItem := { id := "d2", name := "EGG", category := "Dairy", count := 1 }

/-- C4 (amended): the Import Reconciler matches by normalized name
(lowercase, trimmed, non-alphanumeric runs collapsed), adds
`max(1, count)` to the first ingredient whose normalized name matches
(keeping its first-seen casing), and otherwise prepends a fresh
ingredient with `servingsPerCount = 1`.  Two imports whose names agree
under that normalization — "Egg" then "EGG" — merge into one ingredient
named "Egg" with count 13.  (The spec's "Egg"/"eggs" instance is false:
the implemented normalization does no singular/plural stemming, see the
counterexample.) -/
theorem claim_C4 :
    (∀ (env : Env) (s : PlannerState) (item : ReceiptDraftItem) (found : Ingredient),
        s.ingredients.find? (fun g => normalizeName g.name == normalizeName item.name) =
          some found →
        (mergeReceiptItems env s [item]).ingredients =
          s.ingredients.map (fun g =>
            if g.id == found.id then { g with count := g.count + max 1 item.count } else g)) ∧
    (∀ (env : Env) (s : PlannerState) (item : ReceiptDraftItem),
        s.ingredients.find? (fun g => normalizeName g.name == normalizeName item.name) = none →
        (mergeReceiptItems env s [item]).ingredients =
          { id := createId "ingredient" env 0, name := item.name, category := item.category,
            count := max 1 item.count, servingsPerCount := some 1,
            createdAt := env.now } :: s.ingredients) ∧
    ((mergeReceiptItems envA (mergeReceiptItems envA (mkState [] []) [eggImport1])
        [eggImport3]).ingredients.map (fun g => (g.name, g.count))) = [("Egg", 13)] := by
  refine ⟨?_, ?_, ?_⟩
  · intro env s item found hf
    show mergeReceiptList env [item] s.ingredients 0 = _
    simp only [mergeReceiptList, hf]
  · intro env s item hf
    show mergeReceiptList env [item] s.ingredients 0 = _
    simp only [mergeReceiptList, hf]
  · show ((mergeReceiptList envA [eggImport3] (mergeReceiptList envA [eggImport1] [] 0) 0).map
      (fun g => (g.name, g.count))) = [("Egg", 13)]
    have h1 : normalizeName "Egg" = "egg" := by decide
    have h2 : normalizeName "EGG" = "egg" := by decide
    have h3 : (1 : ℚ) ⊔ 12 = 12 := max_eq_right (by norm_num)
    have h4 : (1 : ℚ) ⊔ 1 = 1 := max_eq_right le_rfl
    simp only [mergeReceiptList, eggImport1, eggImport3, h1, h2, List.find?, beq_self_eq_true,
      h3, h4, List.map]
    norm_num

/-- The ledger row "Egg" ×12 used by the C4 witness. -/
def eggLedgerIng : Ingredient :=
  { id := "i1", name := "Egg", category := "Dairy", count := 12
    servingsPerCount := some 1, createdAt := "t0" }

/-- Witness for C4: both reconciler branches at concrete inputs — a
ledger containing "Egg" ×12 merged with "EGG" ×1, and an import into an
empty ledger. -/
theorem claim_C4_witness :
    ((mergeReceiptItems envA (mkState [eggLedgerIng] []) [eggImport3]).ingredients =
      (mkState [eggLedgerIng] []).ingredients.map (fun g =>
        if g.id == eggLedgerIng.id then
          { g with count := g.count + max 1 eggImport3.count } else g)) ∧
    ((mergeReceiptItems envA (mkState [] []) [eggImport1]).ingredients =
      { id := createId "ingredient" envA 0, name := eggImport1.name,
        category := eggImport1.category, count := max 1 eggImport1.count,
        servingsPerCount := some 1, createdAt := envA.now } :: (mkState [] []).ingredients) :=
  ⟨claim_C4.1 envA _ eggImport3 _ rfl, claim_C4.2.1 envA _ eggImport1 rfl⟩

/-- Counterexample for C4 as stated: importing "Egg" ×12 then "eggs" ×1
leaves TWO ingredients ("eggs" and "Egg"), not one ingredient with
count 13 — the normalization does not merge singular and plural. -/
theorem claim_C4_counterexample :
    ((mergeReceiptItems envA (mergeReceiptItems envA (mkState [] []) [eggImport1])
        [eggImport2]).ingredients.map (fun g => g.name)) = ["eggs", "Egg"] ∧
      ¬((mergeReceiptItems envA (mergeReceiptItems envA (mkState [] []) [eggImport1])
        [eggImport2]).ingredients.length = 1) := by
  constructor <;> decide

/-! ## C9 -/

@[simp]
theorem commitWithHistory_ingredients (s p : PlannerState) :
    (commitWithHistory s p).ingredients = p.ingredients := rfl

@[simp]
theorem commitWithHistory_weekPlans (s p : PlannerState) :
    (commitWithHistory s p).weekPlans = p.weekPlans := rfl

@[simp]
theorem commitWithHistory_currentWeekStartDate (s p : PlannerState) :
    (commitWithHistory s p).currentWeekStartDate = p.currentWeekStartDate := rfl

/-- C9: `makeLeftovers` with `day ≥ 6` (in particular day 6) leaves the
state unchanged; with `day ≤ 5` and a non-empty source slot it writes a
copy of that slot, flagged `isLeftovers`, into the lunch row of the next
day at the same family/profile target — overwriting it — and leaves the
ingredient ledger untouched. -/
theorem claim_C9 :
    (∀ (s : PlannerState) (addr : SlotAddress), 6 ≤ addr.day → makeLeftovers s addr = s) ∧
    (∀ (s : PlannerState) (addr : SlotAddress) (entry : SlotEntry),
      addr.day ≤ 5 →
      (addr.targetType = TargetType.family ∨ addr.profileId.isSome) →
      getSlot (currentPlanOf (ensurePlan s.weekPlans s.currentWeekStartDate)
        s.currentWeekStartDate) addr = some entry →
      addr.day + 1 < ((currentPlanOf (ensurePlan s.weekPlans s.currentWeekStartDate)
        s.currentWeekStartDate).grid.row MealType.lunch).length →
      getSlot (currentPlanOf (makeLeftovers s addr).weekPlans
          (makeLeftovers s addr).currentWeekStartDate)
          { mealType := MealType.lunch, day := addr.day + 1
            targetType := addr.targetType, profileId := addr.profileId } =
        some { entry with isLeftovers := some true } ∧
      (makeLeftovers s addr).ingredients = s.ingredients) := by
  constructor
  · intro s addr hday
    rw [makeLeftovers, if_pos hday]
  · intro s addr entry hday hwf hslot hlen
    have hng : ¬(addr.day ≥ 6) := by omega
    rw [makeLeftovers, if_neg hng]
    simp only [clonePlan_id, hslot, cloneSlotEntry_id]
    constructor
    · simp only [commitWithHistory_weekPlans, commitWithHistory_currentWeekStartDate]
      rw [currentPlanOf_updAssoc]
      exact getSlot_setSlot_self _ _ _ hwf hlen
    · rfl

/-- The family dinner slot of day 6. -/
def dinner6 : SlotAddress := { mealType := .dinner, day := 6, targetType := .family }

/-- Witness for C9: day 6 is a no-op on the rice fixture, and making
leftovers from the day-0 family dinner writes the flagged copy into
day-1 lunch with the ledger unchanged. -/
theorem claim_C9_witness :
    makeLeftovers (riceState 12) dinner6 = riceState 12 ∧
    (getSlot (currentPlanOf (makeLeftovers (riceState 12) dinner0).weekPlans
        (makeLeftovers (riceState 12) dinner0).currentWeekStartDate)
        { mealType := MealType.lunch, day := 1, targetType := TargetType.family,
          profileId := none } =
      some { riceSlot with isLeftovers := some true } ∧
    (makeLeftovers (riceState 12) dinner0).ingredients = (riceState 12).ingredients) :=
  ⟨claim_C9.1 (riceState 12) dinner6 (by decide),
    claim_C9.2 (riceState 12) dinner0 riceSlot (by decide) (Or.inl rfl) rfl (by decide)⟩

/-! ## C3 -/

/-- `normalizeServingsPerCount` of the default factor 1 is 1. -/
theorem normalizeServingsPerCount_one : normalizeServingsPerCount (some 1) = 1 := by
  rw [normalizeServingsPerCount]
  rw [if_neg (by norm_num : ¬(1:ℚ) = 0)]
  exact max_eq_right (by norm_num)

/-- Meal template "Rice Bowl": qty 2 of rice, default 2 servings. -/
def riceMeal : Meal :=
  { id := "m", name := "Rice Bowl", ingredients := [{ name := "rice", qty := some 2 }]
    servingsDefault := 2, createdAt := "t0" }

/-- Ledger with 10 rice and the rice meal available. -/
def mealState : PlannerState := mkState [mkIng "r" "rice" 10 (some 1)] [riceMeal]

/-- One bound chicken ref at 2 servings: the slot content about to be
overwritten. -/
def chickenSlotFx : SlotEntry :=
  { ingredientRefs := [{ ingredientId := some "c", name := "chicken", qty := 1 }]
    servings := 2 }

/-- A populated chicken slot (stock already consumed down to 3) about to
be overwritten by the rice meal. -/
def overwriteState : PlannerState :=
  let s := mkState [mkIng "c" "chicken" 3 (some 1)] [riceMeal]
  { s with weekPlans := [("w1", setSlot (createEmptyWeekPlan "w1") dinner0
      (some chickenSlotFx))] }

/-- C3: dropping a known meal onto a populated slot first restores the
old slot's IngredientRefs to the ledger and only then applies the new
meal's consumption — the resulting ledger is exactly
`consume ∘ restore`.  Consequences at concrete states: dropping the same
meal twice consumes its stock only once (rice stays at 8 after the
overwrite), and overwriting a chicken slot with a rice meal refunds the
chicken (back to 4) rather than losing it. -/
theorem claim_C3 :
    (∀ (s : PlannerState) (addr : SlotAddress) (mid : String) (meal : Meal)
        (existing : SlotEntry),
      s.meals.find? (fun item => item.id == mid) = some meal →
      getSlot (currentPlanOf (ensurePlan s.weekPlans s.currentWeekStartDate)
        s.currentWeekStartDate) addr = some existing →
      (dropMealToCell s addr mid).ingredients =
        (consumeMealItems
          ((orFalsy existing.servings (orFalsy meal.servingsDefault 2)) /
            max 1 (orFalsy meal.servingsDefault 1))
          meal.ingredients []
          (adjustInventoryForIngredientRefs s.ingredients existing.ingredientRefs
            AdjustDirection.restore)).2) ∧
    (((dropMealToCell mealState dinner0 "m").ingredients.map (fun g => g.count)) = [8] ∧
      ((dropMealToCell (dropMealToCell mealState dinner0 "m") dinner0 "m").ingredients.map
        (fun g => g.count)) = [8]) ∧
    ((dropMealToCell overwriteState dinner0 "m").ingredients.map
      (fun g => (g.name, g.count))) = [("chicken", 4)] := by
  refine ⟨?_, ?_, ?_⟩
  · intro s addr mid meal existing hfind hslot
    rcases hsplit : consumeMealItems
        ((orFalsy existing.servings (orFalsy meal.servingsDefault 2)) /
          max 1 (orFalsy meal.servingsDefault 1))
        meal.ingredients []
        (adjustInventoryForIngredientRefs s.ingredients existing.ingredientRefs
          AdjustDirection.restore) with ⟨refs, ings⟩
    simp only [dropMealToCell, hfind, clonePlan_id, hslot, hsplit, Option.getD_some,
      commitWithHistory_ingredients]
  · have h1 : (normalizeName "rice" == normalizeName "rice") = true := by decide
    constructor <;>
    norm_num [dropMealToCell, mealState, mkState, mkIng, riceMeal, consumeMealItems, dinner0,
      ensurePlan, lookupAssoc, currentPlanOf, createEmptyWeekPlan, getSlot, getCell, setSlot,
      defaultSlotEntry, orFalsy, servingsToCountDelta, normalizeServingsPerCount, roundCount,
      jround, addIngredientRef, List.find?, List.findIdx?, updAssoc, h1,
      WeekGrid.row, WeekGrid.setRow, putCell, cloneSlot, cloneSlotEntry, copyRef,
      List.replicate, List.set, List.getD, refKey, adjustInventoryForIngredientRefs,
      commitWithHistory, setCellValue, snapshotFromState]
  · have h1 : (normalizeName "chicken" == normalizeName "rice") = false := by decide
    norm_num [dropMealToCell, overwriteState, chickenSlotFx, mkState, mkIng, riceMeal,
      consumeMealItems,
      dinner0, ensurePlan, lookupAssoc, currentPlanOf, createEmptyWeekPlan, getSlot, getCell,
      setSlot, defaultSlotEntry, orFalsy, servingsToCountDelta, normalizeServingsPerCount,
      roundCount, jround, addIngredientRef, List.find?, List.findIdx?, updAssoc, h1,
      WeekGrid.row, WeekGrid.setRow, putCell, cloneSlot, cloneSlotEntry, copyRef,
      List.replicate, List.set, List.getD, refKey, adjustInventoryForIngredientRefs,
      commitWithHistory, setCellValue, snapshotFromState]

/-- Witness for C3's universally quantified part: the factorization at
the populated chicken slot being overwritten by the rice meal. -/
theorem claim_C3_witness :
    (dropMealToCell overwriteState dinner0 "m").ingredients =
      (consumeMealItems
        ((orFalsy chickenSlotFx.servings (orFalsy riceMeal.servingsDefault 2)) /
          max 1 (orFalsy riceMeal.servingsDefault 1))
        riceMeal.ingredients []
        (adjustInventoryForIngredientRefs overwriteState.ingredients
          chickenSlotFx.ingredientRefs AdjustDirection.restore)).2 :=
  claim_C3.1 overwriteState dinner0 "m" riceMeal chickenSlotFx rfl rfl

/-! ## C2 -/

/-- The delta pass of `setCellServings` compares a ref list against
itself, so every per-key qty difference rounds to zero and the trailing
filter drops every entry. -/
theorem servingsDeltaRefs_self (refs : List IngredientRef) :
    servingsDeltaRefs refs refs = [] := by
  simp only [servingsDeltaRefs]
  rw [List.filter_eq_nil_iff]
  intro item hitem
  rw [List.mem_map] at hitem
  obtain ⟨key, _, hEq⟩ := hitem
  intro hcontra
  rw [← hEq] at hcontra
  simp only [Bool.and_eq_true, bne_iff_ne] at hcontra
  refine hcontra.2 ?_
  rw [sub_self]
  norm_num [roundCount, jround]

/-- C2: the slot itself is rescaled as described — servings floored to
an integer ≥ 1 and every ref qty scaled by `newServings /
previousServings` — but the ledger adjustment the claim describes never
happens: `const current = original` aliases the slot object and
`current.ingredientRefs = nextIngredientRefs` runs before
`original?.ingredientRefs` is read, so the delta pass compares the
rescaled refs with themselves, every per-key delta is zero, and each
ledger count is merely re-rounded/re-clamped.  On the spec's scenario
the rice slot goes to 4 servings with qty 8 while the rice stock stays
12 instead of dropping to 8. -/
theorem claim_C2 :
    (∀ refs : List IngredientRef, servingsDeltaRefs refs refs = []) ∧
    (∀ (s : PlannerState) (addr : SlotAddress) (servings : ℚ),
      (setCellServings s addr servings).ingredients = s.ingredients ∨
      (setCellServings s addr servings).ingredients =
        s.ingredients.map (fun g => { g with count := roundCount (max 0 g.count) })) ∧
    ((setCellServings (riceState 12) dinner0 4).ingredients.map (fun g => g.count) = [12]) ∧
    ((getSlot (currentPlanOf (setCellServings (riceState 12) dinner0 4).weekPlans
        (setCellServings (riceState 12) dinner0 4).currentWeekStartDate) dinner0).map
      (fun sl => (sl.servings, sl.ingredientRefs.map (fun r => r.qty))) = some (4, [8])) := by
  refine ⟨servingsDeltaRefs_self, ?_, ?_, ?_⟩
  · intro s addr servings
    cases hslot : getSlot (clonePlan (currentPlanOf (ensurePlan s.weekPlans
        s.currentWeekStartDate) s.currentWeekStartDate)) addr with
    | none =>
      left
      simp only [setCellServings, hslot]
    | some original =>
      right
      simp only [setCellServings, hslot, servingsDeltaRefs_self, List.foldl_nil,
        commitWithHistory_ingredients]
  · have hrq : (("rice" != "")) = true := by decide
    norm_num [setCellServings, riceState, riceSlot, mkState, mkIng, dinner0, ensurePlan,
      hrq, lookupAssoc, currentPlanOf, createEmptyWeekPlan, getSlot, getCell, setSlot,
      defaultSlotEntry, orFalsy, servingsToCountDelta, normalizeServingsPerCount,
      scaleIngredientRefs, servingsDeltaRefs, roundCount, jround, refKey, List.find?,
      updAssoc, WeekGrid.row, WeekGrid.setRow, putCell, cloneSlot, cloneSlotEntry, copyRef,
      List.replicate, List.set, List.getD, commitWithHistory, setCellValue, snapshotFromState,
      List.dedup, bne_iff_ne, bne_self_eq_false, List.filter]
  · have h4 : (((4:ℚ) != 0)) = true := bne_iff_ne.mpr (by norm_num)
    have hrq : (("rice" != "")) = true := by decide
    norm_num [setCellServings, riceState, riceSlot, mkState, mkIng, dinner0, ensurePlan, h4,
      hrq, lookupAssoc, currentPlanOf, createEmptyWeekPlan, getSlot, getCell, setSlot,
      defaultSlotEntry, orFalsy, servingsToCountDelta, normalizeServingsPerCount,
      scaleIngredientRefs, servingsDeltaRefs, roundCount, jround, refKey, List.find?,
      updAssoc, WeekGrid.row, WeekGrid.setRow, putCell, cloneSlot, cloneSlotEntry, copyRef,
      List.replicate, List.set, List.getD, commitWithHistory, setCellValue, snapshotFromState,
      List.dedup, bne_iff_ne, bne_self_eq_false, List.filter]

/-! ## C7 -/

theorem wf_of_getSlot_some (p : WeekPlan) (x : SlotAddress) (e : SlotEntry)
    (h : getSlot p x = some e) :
    x.targetType = TargetType.family ∨ x.profileId.isSome := by
  cases ht : x.targetType with
  | family => exact Or.inl rfl
  | profile =>
    cases hp : x.profileId with
    | some pid => right; rfl
    | none =>
      exfalso
      unfold getSlot at h
      cases hc : getCell p x with
      | none => rw [hc] at h; cases h
      | some cell => rw [hc, ht, hp] at h; cases h

theorem setSlot_row_length (p : WeekPlan) (x : SlotAddress) (v : Option SlotEntry)
    (mt : MealType) : ((setSlot p x v).grid.row mt).length = (p.grid.row mt).length := by
  rw [setSlot_eq_putCell, putCell]
  by_cases hm : mt = x.mealType
  · subst hm
    simp [WeekGrid.row_setRow_self, List.length_set]
  · simp only [WeekGrid.row_setRow_ne _ _ _ _ hm]

theorem lookupAssoc_append_of_none {α : Type} (l : List (String × α)) (k : String) (v : α)
    (h : lookupAssoc l k = none) : lookupAssoc (l ++ [(k, v)]) k = some v := by
  induction l with
  | nil => simp [lookupAssoc, List.find?]
  | cons q rest ih =>
    rw [lookupAssoc_cons] at h
    rw [List.cons_append, lookupAssoc_cons]
    by_cases hq : (q.1 == k) = true
    · rw [if_pos hq] at h
      cases h
    · rw [if_neg hq] at h
      rw [if_neg hq]
      exact ih h

theorem currentPlanOf_ensurePlan (wp : List (String × WeekPlan)) (k : String) :
    currentPlanOf (ensurePlan wp k) k = currentPlanOf wp k := by
  rw [ensurePlan]
  by_cases h : (lookupAssoc wp k).isSome
  · rw [if_pos h]
  · rw [if_neg h]
    rw [Option.not_isSome_iff_eq_none] at h
    rw [currentPlanOf, currentPlanOf, lookupAssoc_append_of_none wp k _ h, h]
    rfl

theorem moveOrSwap_ledger (s : PlannerState) (a b : SlotAddress) :
    (moveOrSwapCell s a b).ingredients = s.ingredients := by
  by_cases hg : (slotKey a == slotKey b && a.day == b.day && a.mealType == b.mealType) = true
  · rw [moveOrSwapCell, if_pos hg]
  · cases hf : getSlot (clonePlan (currentPlanOf (ensurePlan s.weekPlans s.currentWeekStartDate)
        s.currentWeekStartDate)) a with
    | none => simp only [moveOrSwapCell, hg, Bool.false_eq_true, if_false, ite_self, hf]
    | some e =>
      simp only [moveOrSwapCell, hg, Bool.false_eq_true, if_false, hf,
        commitWithHistory_ingredients]

theorem moveOrSwap_twice_restores (s : PlannerState) (a b : SlotAddress) (ea eb : SlotEntry)
    (hga : getSlot (currentPlanOf (ensurePlan s.weekPlans s.currentWeekStartDate)
      s.currentWeekStartDate) a = some ea)
    (hgb : getSlot (currentPlanOf (ensurePlan s.weekPlans s.currentWeekStartDate)
      s.currentWeekStartDate) b = some eb)
    (hlena : a.day < ((currentPlanOf (ensurePlan s.weekPlans s.currentWeekStartDate)
      s.currentWeekStartDate).grid.row a.mealType).length)
    (hlenb : b.day < ((currentPlanOf (ensurePlan s.weekPlans s.currentWeekStartDate)
      s.currentWeekStartDate).grid.row b.mealType).length) :
    getSlot (currentPlanOf (moveOrSwapCell (moveOrSwapCell s a b) a b).weekPlans
        (moveOrSwapCell (moveOrSwapCell s a b) a b).currentWeekStartDate) a = some ea ∧
    getSlot (currentPlanOf (moveOrSwapCell (moveOrSwapCell s a b) a b).weekPlans
        (moveOrSwapCell (moveOrSwapCell s a b) a b).currentWeekStartDate) b = some eb := by
  have hwa := wf_of_getSlot_some _ _ _ hga
  have hwb := wf_of_getSlot_some _ _ _ hgb
  by_cases hg : (slotKey a == slotKey b && a.day == b.day && a.mealType == b.mealType) = true
  · have h1 : moveOrSwapCell s a b = s := by rw [moveOrSwapCell, if_pos hg]
    rw [h1, h1]
    rw [currentPlanOf_ensurePlan] at hga hgb
    exact ⟨hga, hgb⟩
  · set k := s.currentWeekStartDate with hk
    set WP := ensurePlan s.weekPlans k with hWP
    set P := currentPlanOf WP k with hP
    have hab : (a.mealType ≠ b.mealType ∨ a.day ≠ b.day) ∨
        (a.mealType = b.mealType ∧ a.day = b.day ∧ slotKey a ≠ slotKey b) := by
      by_cases hm : a.mealType = b.mealType
      · by_cases hd : a.day = b.day
        · right
          refine ⟨hm, hd, fun hkey => hg ?_⟩
          simp [hkey, hd, hm]
        · exact Or.inl (Or.inr hd)
      · exact Or.inl (Or.inl hm)
    set p2 := setSlot (setSlot P a (some eb)) b (some ea) with hp2
    have h1w : (moveOrSwapCell s a b).weekPlans = updAssoc WP k p2 := by
      simp only [moveOrSwapCell, hg, Bool.false_eq_true, if_false, clonePlan_id, ← hk, ← hWP,
        ← hP, hga, hgb, commitWithHistory_weekPlans, hp2]
    have h1k : (moveOrSwapCell s a b).currentWeekStartDate = k := by
      simp only [moveOrSwapCell, hg, Bool.false_eq_true, if_false, clonePlan_id, ← hk, ← hWP,
        ← hP, hga, hgb, commitWithHistory_currentWeekStartDate]
    have hp2a : getSlot p2 a = some eb := by
      rw [hp2, getSlot_setSlot_ne _ a b _ hab, getSlot_setSlot_self _ _ _ hwa hlena]
    have hp2b : getSlot p2 b = some ea := by
      rw [hp2, getSlot_setSlot_self _ _ _ hwb]
      rw [setSlot_row_length]
      exact hlenb
    set p3 := setSlot (setSlot p2 a (some ea)) b (some eb) with hp3
    have h2w : (moveOrSwapCell (moveOrSwapCell s a b) a b).weekPlans =
        updAssoc (updAssoc WP k p2) k p3 := by
      conv_lhs => rw [moveOrSwapCell]
      rw [if_neg hg, h1k, h1w]
      simp only [ensurePlan_of_mem _ _ (lookupAssoc_updAssoc_isSome WP k p2),
        currentPlanOf_updAssoc, clonePlan_id, hp2a, hp2b, commitWithHistory_weekPlans]
    have h2k : (moveOrSwapCell (moveOrSwapCell s a b) a b).currentWeekStartDate = k := by
      conv_lhs => rw [moveOrSwapCell]
      rw [if_neg hg, h1k, h1w]
      simp only [ensurePlan_of_mem _ _ (lookupAssoc_updAssoc_isSome WP k p2),
        currentPlanOf_updAssoc, clonePlan_id, hp2a, hp2b,
        commitWithHistory_currentWeekStartDate]
    rw [h2w, h2k, currentPlanOf_updAssoc]
    constructor
    · rw [hp3, getSlot_setSlot_ne _ a b _ hab, getSlot_setSlot_self _ _ _ hwa]
      rw [setSlot_row_length, setSlot_row_length]
      exact hlena
    · rw [hp3, getSlot_setSlot_self _ _ _ hwb]
      rw [setSlot_row_length, setSlot_row_length, setSlot_row_length]
      exact hlenb

/-- A second slot fixture (one unbound ref at 3 servings). -/
def slotBfx : SlotEntry :=
  { ingredientRefs := [{ ingredientId := none, name := "x", qty := 1 }], servings := 3 }

/-- State with the rice slot at day-0 dinner and `slotBfx` at day-1
dinner. -/
def swapState : PlannerState :=
  let s := mkState [] []
  { s with weekPlans := [("w1", setSlot (setSlot (createEmptyWeekPlan "w1") dinner0
      (some riceSlot)) dinner1 (some slotBfx))] }

/-- C7 (amended): `moveOrSwapCell` never changes the ingredient ledger,
and applying it twice restores the contents of both addresses whenever
both slots are non-empty (when the source slot is empty each call is a
no-op; the unrestored case is exactly source non-empty and target empty,
see the counterexample). -/
theorem claim_C7 :
    (∀ (s : PlannerState) (a b : SlotAddress),
      (moveOrSwapCell s a b).ingredients = s.ingredients) ∧
    (∀ (s : PlannerState) (a b : SlotAddress) (ea eb : SlotEntry),
      getSlot (currentPlanOf (ensurePlan s.weekPlans s.currentWeekStartDate)
        s.currentWeekStartDate) a = some ea →
      getSlot (currentPlanOf (ensurePlan s.weekPlans s.currentWeekStartDate)
        s.currentWeekStartDate) b = some eb →
      a.day < ((currentPlanOf (ensurePlan s.weekPlans s.currentWeekStartDate)
        s.currentWeekStartDate).grid.row a.mealType).length →
      b.day < ((currentPlanOf (ensurePlan s.weekPlans s.currentWeekStartDate)
        s.currentWeekStartDate).grid.row b.mealType).length →
      getSlot (currentPlanOf (moveOrSwapCell (moveOrSwapCell s a b) a b).weekPlans
          (moveOrSwapCell (moveOrSwapCell s a b) a b).currentWeekStartDate) a = some ea ∧
      getSlot (currentPlanOf (moveOrSwapCell (moveOrSwapCell s a b) a b).weekPlans
          (moveOrSwapCell (moveOrSwapCell s a b) a b).currentWeekStartDate) b = some eb) :=
  ⟨moveOrSwap_ledger, moveOrSwap_twice_restores⟩

/-- Witness for C7: swapping the two populated dinner slots twice
restores both. -/
theorem claim_C7_witness :
    getSlot (currentPlanOf (moveOrSwapCell (moveOrSwapCell swapState dinner0 dinner1)
        dinner0 dinner1).weekPlans
        (moveOrSwapCell (moveOrSwapCell swapState dinner0 dinner1)
          dinner0 dinner1).currentWeekStartDate) dinner0 = some riceSlot ∧
    getSlot (currentPlanOf (moveOrSwapCell (moveOrSwapCell swapState dinner0 dinner1)
        dinner0 dinner1).weekPlans
        (moveOrSwapCell (moveOrSwapCell swapState dinner0 dinner1)
          dinner0 dinner1).currentWeekStartDate) dinner1 = some slotBfx :=
  claim_C7.2 swapState dinner0 dinner1 riceSlot slotBfx rfl rfl (by decide) (by decide)

/-- Counterexample for C7 as stated: with a populated source and an
EMPTY target, `moveOrSwapCell` twice does not restore — the first call
moves the slot and the second is a no-op (its source is now empty), so
the original contents of the two addresses are not recovered. -/
theorem claim_C7_counterexample :
    getSlot (currentPlanOf (riceState 12).weekPlans
      (riceState 12).currentWeekStartDate) dinner0 = some riceSlot ∧
    getSlot (currentPlanOf (moveOrSwapCell (moveOrSwapCell (riceState 12) dinner0 dinner1)
        dinner0 dinner1).weekPlans
        (moveOrSwapCell (moveOrSwapCell (riceState 12) dinner0 dinner1)
          dinner0 dinner1).currentWeekStartDate) dinner0 = none :=
  ⟨rfl, by decide⟩

/-! ## C8 -/

/-- C8 (amended): dropping a known ingredient into an empty well-formed
slot seeds it with `servings = max(1, round(servingsPerCount))` — the
rounded conversion factor clamped below at 1 (the claim's bare
`round(servingsPerCount)` is wrong for factors below 0.5, see the
counterexample). -/
theorem claim_C8 :
    ∀ (s : PlannerState) (addr : SlotAddress) (iid : String) (ing : Ingredient),
    s.ingredients.find? (fun g => g.id == iid) = some ing →
    getSlot (currentPlanOf (ensurePlan s.weekPlans s.currentWeekStartDate)
      s.currentWeekStartDate) addr = none →
    (addr.targetType = TargetType.family ∨ addr.profileId.isSome) →
    addr.day < ((currentPlanOf (ensurePlan s.weekPlans s.currentWeekStartDate)
      s.currentWeekStartDate).grid.row addr.mealType).length →
    ∃ sl : SlotEntry,
      getSlot (currentPlanOf (dropIngredientToCell s addr iid).weekPlans
        (dropIngredientToCell s addr iid).currentWeekStartDate) addr = some sl ∧
      sl.servings = max 1 ((jround (ing.servingsPerCount.getD 1) : ℤ) : ℚ) := by
  intro s addr iid ing hfind hempty hwf hlen
  simp only [dropIngredientToCell, hfind, clonePlan_id, hempty, Option.isNone_none, if_true,
    Option.getD_none, commitWithHistory_weekPlans, commitWithHistory_currentWeekStartDate,
    addIngredientRef]
  rw [currentPlanOf_updAssoc]
  refine ⟨_, getSlot_setSlot_self _ _ _ hwf hlen, rfl⟩

/-- Witness for C8: dropping chicken (conversion factor 1) into the
empty day-0 dinner slot of the scenario ledger. -/
theorem claim_C8_witness :
    ∃ sl : SlotEntry,
      getSlot (currentPlanOf (dropIngredientToCell chickenState dinner0 "c").weekPlans
        (dropIngredientToCell chickenState dinner0 "c").currentWeekStartDate) dinner0 =
          some sl ∧
      sl.servings = max 1 ((jround (((mkIng "c" "chicken" 4 (some 1)).servingsPerCount.getD 1))
        : ℤ) : ℚ) :=
  claim_C8 chickenState dinner0 "c" (mkIng "c" "chicken" 4 (some 1)) rfl rfl (Or.inl rfl)
    (by decide)

/-- Ledger whose only ingredient has `servingsPerCount = 0.2`. -/
def spcState : PlannerState := mkState [mkIng "c" "chicken" 4 (some (1/5))] []

/-- Counterexample for C8 as stated: for `servingsPerCount = 0.2` the
seeded servings is 1, while `round(servingsPerCount)` is 0 — the claim's
equation fails because the code clamps at 1. -/
theorem claim_C8_counterexample :
    ((getSlot (currentPlanOf (dropIngredientToCell spcState dinner0 "c").weekPlans
      (dropIngredientToCell spcState dinner0 "c").currentWeekStartDate) dinner0).map
        (fun sl => sl.servings)) = some 1 ∧
    ((jround ((1:ℚ)/5) : ℤ) : ℚ) = 0 ∧ (1 : ℚ) ≠ ((jround ((1:ℚ)/5) : ℤ) : ℚ) := by
  refine ⟨?_, by rw [jround]; norm_num, by rw [jround]; norm_num⟩
  have hmax : (1 : ℚ) ⊔ ((jround ((1:ℚ)/5) : ℤ) : ℚ) = 1 := by
    rw [jround]
    norm_num
  norm_num [dropIngredientToCell, spcState, mkState, mkIng, dinner0, ensurePlan,
    lookupAssoc, currentPlanOf, createEmptyWeekPlan, getSlot, getCell, setSlot,
    defaultSlotEntry, addIngredientRef, List.find?, updAssoc, hmax,
    WeekGrid.row, WeekGrid.setRow, putCell, cloneSlot, cloneSlotEntry, copyRef,
    List.replicate, List.set, List.getD, commitWithHistory, setCellValue, snapshotFromState]

/-! ## C1 -/

/-- `find?` by id commutes with mapping an id-preserving function. -/
theorem find?_id_map (l : List Ingredient) (f : Ingredient → Ingredient)
    (hf : ∀ g, (f g).id = g.id) (iid : String) :
    (l.map f).find? (fun g => g.id == iid) = (l.find? (fun g => g.id == iid)).map f := by
  have hp : ((fun (g : Ingredient) => g.id == iid) ∘ f) = (fun g => g.id == iid) := by
    funext g
    simp [Function.comp, hf]
  rw [List.find?_map, hp]

theorem roundtrip_count_bound (c d : ℚ) (hd : 0 < d) (hc : d ≤ c) :
    |roundCount (max 0 (roundCount (max 0 (c - d)) + d)) - c| ≤ 1/100 := by
  have h1 : max 0 (c - d) = c - d := max_eq_right (by linarith)
  rw [h1]
  have hnn : 0 ≤ roundCount (c - d) := roundCount_nonneg (by linarith)
  have h2 : max 0 (roundCount (c - d) + d) = roundCount (c - d) + d :=
    max_eq_right (by linarith)
  rw [h2]
  have hr1 := abs_roundCount_sub_le (c - d)
  have hr2 := abs_roundCount_sub_le (roundCount (c - d) + d)
  rw [abs_le] at hr1 hr2 ⊢
  constructor <;> linarith [hr1.1, hr1.2, hr2.1, hr2.2]

/-- C1 (amended): dropping a known ingredient into an empty well-formed
slot and immediately removing that slot back to inventory returns the
ingredient's stock to within 0.01 of its pre-drop value, PROVIDED the
pre-drop stock is at least the converted delta `1/servingsPerCount` (so
the clamp-at-zero cannot fire; see the counterexample for why the claim
fails without that proviso).  The spec's concrete scenario holds:
chicken 4 → drop → 3 with a one-ref qty-1 slot → remove → 4 with a null
cell. -/
theorem claim_C1 :
    (∀ (s : PlannerState) (addr : SlotAddress) (iid : String) (ing : Ingredient),
      s.ingredients.find? (fun g => g.id == iid) = some ing →
      getSlot (currentPlanOf (ensurePlan s.weekPlans s.currentWeekStartDate)
        s.currentWeekStartDate) addr = none →
      (addr.targetType = TargetType.family ∨ addr.profileId.isSome) →
      addr.day < ((currentPlanOf (ensurePlan s.weekPlans s.currentWeekStartDate)
        s.currentWeekStartDate).grid.row addr.mealType).length →
      servingsToCountDelta 1 ing.servingsPerCount ≤ ing.count →
      ∃ g2 : Ingredient,
        (removeCellToInventory (dropIngredientToCell s addr iid) addr).ingredients.find?
          (fun g => g.id == iid) = some g2 ∧
        |g2.count - ing.count| ≤ 1/100) ∧
    (((dropIngredientToCell chickenState dinner0 "c").ingredients.map
        (fun g => g.count) = [3] ∧
      (getSlot (currentPlanOf (dropIngredientToCell chickenState dinner0 "c").weekPlans
        (dropIngredientToCell chickenState dinner0 "c").currentWeekStartDate) dinner0).map
        (fun sl => (sl.servings, sl.ingredientRefs)) =
       some (1, [{ ingredientId := some "c", name := "chicken", qty := 1 }])) ∧
     ((removeCellToInventory (dropIngredientToCell chickenState dinner0 "c")
        dinner0).ingredients.map (fun g => g.count) = [4] ∧
      getCell (currentPlanOf (removeCellToInventory (dropIngredientToCell chickenState dinner0
        "c") dinner0).weekPlans
        (removeCellToInventory (dropIngredientToCell chickenState dinner0 "c")
          dinner0).currentWeekStartDate) dinner0 = none)) := by
  constructor
  · intro s addr iid ing hfind hempty hwf hlen hstock

    set k := s.currentWeekStartDate with hk
    set WP := ensurePlan s.weekPlans k with hWP
    set P := currentPlanOf WP k with hP
    set d := servingsToCountDelta 1 ing.servingsPerCount with hd
    set f1 : Ingredient → Ingredient := fun item =>
      if item.id == ing.id then { item with count := roundCount (max 0 (item.count - d)) }
      else item with hf1
    set ref : IngredientRef := { ingredientId := some ing.id, name := ing.name, qty := 1 }
      with href
    set cur : SlotEntry :=
      { defaultSlotEntry with
        servings := max 1 ((jround (ing.servingsPerCount.getD 1) : ℤ) : ℚ)
        ingredientRefs := [ref] } with hcur
    have h1i : (dropIngredientToCell s addr iid).ingredients = s.ingredients.map f1 := by
      simp only [dropIngredientToCell, hfind, clonePlan_id, ← hk, ← hWP, ← hP, hempty,
        Option.isNone_none, if_true, commitWithHistory_ingredients, hf1, hd]
    have h1w : (dropIngredientToCell s addr iid).weekPlans =
        updAssoc WP k (setSlot P addr (some cur)) := by
      simp only [dropIngredientToCell, hfind, clonePlan_id, ← hk, ← hWP, ← hP, hempty,
        Option.isNone_none, if_true, Option.getD_none, commitWithHistory_weekPlans,
        addIngredientRef, hcur, href]
    have h1k : (dropIngredientToCell s addr iid).currentWeekStartDate = k := by
      simp only [dropIngredientToCell, hfind, clonePlan_id, ← hk, ← hWP, ← hP, hempty,
        Option.isNone_none, if_true, commitWithHistory_currentWeekStartDate]
    have hslot1 : getSlot (currentPlanOf (ensurePlan
        (dropIngredientToCell s addr iid).weekPlans
        (dropIngredientToCell s addr iid).currentWeekStartDate)
        (dropIngredientToCell s addr iid).currentWeekStartDate) addr = some cur := by
      rw [h1k, h1w, ensurePlan_of_mem _ _ (lookupAssoc_updAssoc_isSome _ _ _),
        currentPlanOf_updAssoc]
      exact getSlot_setSlot_self _ _ _ hwf hlen
    have h2i : (removeCellToInventory (dropIngredientToCell s addr iid) addr).ingredients =
        adjustInventoryForIngredientRefs (s.ingredients.map f1) [ref]
          AdjustDirection.restore := by
      simp only [removeCellToInventory, clonePlan_id, hslot1, commitWithHistory_ingredients,
        h1i, hcur]
    set f2 : Ingredient → Ingredient := fun ingredient =>
      { ingredient with count := roundCount (max 0 (
          if ((some ing.id : Option String).isSome &&
                ((some ing.id : Option String) == some ingredient.id) ||
              (some ing.id : Option String).isNone &&
                (normalizeName ing.name == normalizeName ingredient.name)) then
            ingredient.count + servingsToCountDelta 1 ingredient.servingsPerCount * 1
          else ingredient.count)) } with hf2
    have h2i2 : adjustInventoryForIngredientRefs (s.ingredients.map f1) [ref]
        AdjustDirection.restore = (s.ingredients.map f1).map f2 := by
      simp only [adjustInventoryForIngredientRefs, List.foldl_cons, List.foldl_nil, href, hf2]
    have hidf1 : ∀ g, (f1 g).id = g.id := by
      intro g
      rw [hf1]
      by_cases h : (g.id == ing.id) = true <;> simp [h]
    have hidf2 : ∀ g, (f2 g).id = g.id := fun g => rfl
    have hfind2 : (removeCellToInventory (dropIngredientToCell s addr iid) addr).ingredients.find?
        (fun g => g.id == iid) = some (f2 (f1 ing)) := by
      rw [h2i, h2i2, List.map_map, find?_id_map _ _ (fun g => by
        simp only [Function.comp]; rw [hidf2, hidf1]) iid, hfind, Option.map_some']
      rfl
    refine ⟨f2 (f1 ing), hfind2, ?_⟩
    have hingid : ing.id = iid := by
      have := List.find?_some hfind
      simpa using this
    have hc1 : f1 ing = { ing with count := roundCount (max 0 (ing.count - d)) } := by
      rw [hf1]
      simp
    have hc2 : (f2 (f1 ing)).count =
        roundCount (max 0 (roundCount (max 0 (ing.count - d)) + d)) := by
      rw [hc1, hf2]
      simp [hd, mul_one]
    rw [hc2]
    have hdpos : 0 < d := by
      rw [hd, servingsToCountDelta]
      exact div_pos one_pos (normalizeServingsPerCount_pos _)
    exact roundtrip_count_bound ing.count d hdpos hstock
  · have hj1 : (1 : ℚ) ⊔ ((jround ((1:ℚ)) : ℤ) : ℚ) = 1 := by
      rw [jround]
      norm_num
    refine ⟨⟨?_, ?_⟩, ?_, by decide⟩ <;>
    norm_num [dropIngredientToCell, removeCellToInventory, chickenState, mkState, mkIng,
      dinner0, ensurePlan, lookupAssoc, currentPlanOf, createEmptyWeekPlan, getSlot, getCell,
      setSlot, defaultSlotEntry, addIngredientRef, List.find?, updAssoc, hj1, orFalsy,
      servingsToCountDelta, normalizeServingsPerCount, roundCount, jround,
      adjustInventoryForIngredientRefs,
      WeekGrid.row, WeekGrid.setRow, putCell, cloneSlot, cloneSlotEntry, copyRef,
      List.replicate, List.set, List.getD, commitWithHistory, setCellValue, snapshotFromState]

/-- Witness for C1's universally quantified part: the chicken scenario
ledger (stock 4, conversion factor 1) satisfies every hypothesis and the
round trip lands within 0.01. -/
theorem claim_C1_witness :
    ∃ g2 : Ingredient,
      (removeCellToInventory (dropIngredientToCell chickenState dinner0 "c")
        dinner0).ingredients.find? (fun g => g.id == "c") = some g2 ∧
      |g2.count - (mkIng "c" "chicken" 4 (some 1)).count| ≤ 1/100 :=
  claim_C1.1 chickenState dinner0 "c" (mkIng "c" "chicken" 4 (some 1)) rfl rfl (Or.inl rfl)
    (by decide)
    (by
      show servingsToCountDelta 1 (some 1) ≤ (4 : ℚ)
      rw [servingsToCountDelta, normalizeServingsPerCount_one]
      norm_num)

/-- Counterexample for C1 as stated: with zero chicken stock the drop
clamps the ledger at 0, and the removal then restores a full unit — the
stock ends at 1, a full unit above its pre-drop value 0, far outside the
0.01 tolerance.  Conservation therefore fails for general states. -/
theorem claim_C1_counterexample :
    ((removeCellToInventory (dropIngredientToCell chickenState0 dinner0 "c")
      dinner0).ingredients.map (fun g => g.count) = [1]) ∧
    ¬(|(1 : ℚ) - 0| ≤ 1/100) := by
  constructor
  · norm_num [dropIngredientToCell, removeCellToInventory, chickenState0, mkState, mkIng,
      dinner0, ensurePlan, lookupAssoc, currentPlanOf, createEmptyWeekPlan, getSlot, getCell,
      setSlot, defaultSlotEntry, addIngredientRef, List.find?, updAssoc, orFalsy,
      servingsToCountDelta, normalizeServingsPerCount, roundCount, jround,
      adjustInventoryForIngredientRefs,
      WeekGrid.row, WeekGrid.setRow, putCell, cloneSlot, cloneSlotEntry, copyRef,
      List.replicate, List.set, List.getD, commitWithHistory, setCellValue, snapshotFromState]
  · norm_num

/-! ## C6 -/

/-- All ledger counts non-negative. -/
def nonnegCounts (l : List Ingredient) : Prop := ∀ g ∈ l, 0 ≤ g.count

/-- Invariant carried through every state: the live ledger and every
ledger stored in the history stacks have non-negative counts. -/
def GoodState (s : PlannerState) : Prop :=
  nonnegCounts s.ingredients ∧
  (∀ sn ∈ s.past, nonnegCounts sn.ingredients) ∧
  (∀ sn ∈ s.future, nonnegCounts sn.ingredients)

/-- A step is well-formed when any imported payload carries only
non-negative counts (`importState` passes counts through unclamped). -/
def GoodStep : Step → Prop
  | .cmd (.importState p) => ∀ l, p.ingredients = some l → nonnegCounts l
  | _ => True

theorem nonneg_ite_count (c : Bool) (a b : Ingredient) (ha : 0 ≤ a.count)
    (hb : 0 ≤ b.count) : 0 ≤ (if c = true then a else b).count := by
  cases c with
  | true => simpa using ha
  | false => simpa using hb

theorem nonnegCounts_adjust (l : List Ingredient) (refs : List IngredientRef)
    (dir : AdjustDirection) : nonnegCounts (adjustInventoryForIngredientRefs l refs dir) := by
  intro g hg
  simp only [adjustInventoryForIngredientRefs, List.mem_map] at hg
  obtain ⟨g0, _, hEq⟩ := hg
  rw [← hEq]
  exact roundCount_nonneg (le_max_left _ _)

theorem nonnegCounts_consume (items : List MealIngredient) (scale : ℚ)
    (refs : List IngredientRef) (l : List Ingredient) (hl : nonnegCounts l) :
    nonnegCounts (consumeMealItems scale items refs l).2 := by
  induction items generalizing refs l with
  | nil => exact hl
  | cons item rest ih =>
    simp only [consumeMealItems]
    apply ih
    cases hidx : l.findIdx? (fun g => normalizeName g.name == normalizeName item.name) with
    | none =>
      simp only [hidx, Option.bind]
      exact hl
    | some i =>
      cases hget : l.get? i with
      | none =>
        simp only [hidx, Option.bind, hget]
        exact hl
      | some m =>
        simp only [hidx, Option.bind, hget]
        intro g hg
        rcases List.mem_or_eq_of_mem_set hg with h | h
        · exact hl g h
        · rw [h]
          exact roundCount_nonneg (le_max_left _ _)

theorem nonnegCounts_mergeReceipt (env : Env) (items : List ReceiptDraftItem)
    (l : List Ingredient) (draw : Nat) (hl : nonnegCounts l) :
    nonnegCounts (mergeReceiptList env items l draw) := by
  induction items generalizing l draw with
  | nil => exact hl
  | cons item rest ih =>
    simp only [mergeReceiptList]
    cases hfound : l.find? (fun g => normalizeName g.name == normalizeName item.name) with
    | some found =>
      simp only [hfound]
      apply ih
      intro g hg
      rw [List.mem_map] at hg
      obtain ⟨g0, hg0, hEq⟩ := hg
      rw [← hEq]
      exact nonneg_ite_count _ _ _
        (add_nonneg (hl g0 hg0) (le_trans zero_le_one (le_max_left _ _)))
        (hl g0 hg0)
    | none =>
      simp only [hfound]
      apply ih
      intro g hg
      rcases List.mem_cons.mp hg with h | h
      · rw [h]
        exact le_trans zero_le_one (le_max_left _ _)
      · exact hl g h

theorem goodState_commit (s patched : PlannerState) (hs : GoodState s)
    (hing : nonnegCounts patched.ingredients) :
    GoodState (commitWithHistory s patched) := by
  refine ⟨hing, ?_, ?_⟩
  · intro sn hsn
    have hsn2 : sn ∈ s.past ++ [snapshotFromState s] := List.mem_of_mem_drop hsn
    rcases List.mem_append.mp hsn2 with h | h
    · exact hs.2.1 sn h
    · rw [List.mem_singleton] at h
      rw [h]
      exact hs.1
  · intro sn hsn
    cases hsn

theorem goodState_undo (s : PlannerState) (hs : GoodState s) : GoodState (undo s) := by
  unfold undo
  cases hlast : s.past.getLast? with
  | none => exact hs
  | some previous =>
    have hmem : previous ∈ s.past := by
      obtain ⟨h, hEq⟩ := List.mem_getLast?_eq_getLast
        (show previous ∈ s.past.getLast? by rw [hlast]; rfl)
      rw [hEq]
      exact List.getLast_mem h
    refine ⟨hs.2.1 previous hmem, ?_, ?_⟩
    · intro sn hsn
      exact hs.2.1 sn (List.dropLast_subset _ hsn)
    · intro sn hsn
      have hsn2 := List.mem_of_mem_take hsn
      rcases List.mem_cons.mp hsn2 with h | h
      · rw [h]
        exact hs.1
      · exact hs.2.2 sn h

theorem goodState_redo (s : PlannerState) (hs : GoodState s) : GoodState (redo s) := by
  unfold redo
  cases hfut : s.future with
  | nil => exact hs
  | cons next rest =>
    refine ⟨hs.2.2 next (by rw [hfut]; exact List.mem_cons_self _ _), ?_, ?_⟩
    · intro sn hsn
      have hsn2 : sn ∈ s.past ++ [snapshotFromState s] := List.mem_of_mem_drop hsn
      rcases List.mem_append.mp hsn2 with h | h
      · exact hs.2.1 sn h
      · rw [List.mem_singleton] at h
        rw [h]
        exact hs.1
    · intro sn hsn
      exact hs.2.2 sn (by rw [hfut]; exact List.mem_cons_of_mem _ hsn)

theorem goodState_step (env : Env) (st : Step) (s : PlannerState)
    (hs : GoodState s) (hst : GoodStep st) : GoodState (applyStep env st s) := by
  cases st with
  | stepUndo => exact goodState_undo s hs
  | stepRedo => exact goodState_redo s hs
  | cmd c =>
    cases c with
    | adjustIngredientCount id delta =>
      refine goodState_commit _ _ hs ?_
      intro g hg
      rw [List.mem_map] at hg
      obtain ⟨g0, hg0, hEq⟩ := hg
      rw [← hEq]
      exact nonneg_ite_count _ _ _ (le_max_left _ _) (hs.1 g0 hg0)
    | dropIngredientToCell addr iid =>
      cases hf : s.ingredients.find? (fun item => item.id == iid) with
      | none =>
        show GoodState (dropIngredientToCell s addr iid)
        simp only [dropIngredientToCell, hf]
        exact hs
      | some ing =>
        show GoodState (dropIngredientToCell s addr iid)
        simp only [dropIngredientToCell, hf]
        refine goodState_commit _ _ hs ?_
        intro g hg
        rw [List.mem_map] at hg
        obtain ⟨g0, hg0, hEq⟩ := hg
        rw [← hEq]
        exact nonneg_ite_count _ _ _ (roundCount_nonneg (le_max_left _ _)) (hs.1 g0 hg0)
    | dropMealToCell addr mid =>
      cases hfind : s.meals.find? (fun item => item.id == mid) with
      | none =>
        show GoodState (dropMealToCell s addr mid)
        simp only [dropMealToCell, hfind]
        exact hs
      | some meal =>
        show GoodState (dropMealToCell s addr mid)
        cases hslot : getSlot (currentPlanOf (ensurePlan s.weekPlans s.currentWeekStartDate)
            s.currentWeekStartDate) addr with
        | none =>
          rcases hsplit : consumeMealItems
              ((orFalsy defaultSlotEntry.servings (orFalsy meal.servingsDefault 2)) /
                max 1 (orFalsy meal.servingsDefault 1))
              meal.ingredients [] s.ingredients with ⟨refs, ings⟩
          have hings : nonnegCounts ings := by
            have h := nonnegCounts_consume meal.ingredients
              ((orFalsy defaultSlotEntry.servings (orFalsy meal.servingsDefault 2)) /
                max 1 (orFalsy meal.servingsDefault 1)) [] s.ingredients hs.1
            rw [hsplit] at h
            exact h
          simp only [dropMealToCell, hfind, clonePlan_id, hslot, Option.getD_none, hsplit]
          exact goodState_commit _ _ hs hings
        | some ex =>
          rcases hsplit : consumeMealItems
              ((orFalsy ex.servings (orFalsy meal.servingsDefault 2)) /
                max 1 (orFalsy meal.servingsDefault 1))
              meal.ingredients []
              (adjustInventoryForIngredientRefs s.ingredients ex.ingredientRefs
                AdjustDirection.restore) with ⟨refs, ings⟩
          have hings : nonnegCounts ings := by
            have h := nonnegCounts_consume meal.ingredients
              ((orFalsy ex.servings (orFalsy meal.servingsDefault 2)) /
                max 1 (orFalsy meal.servingsDefault 1)) []
              (adjustInventoryForIngredientRefs s.ingredients ex.ingredientRefs
                AdjustDirection.restore)
              (nonnegCounts_adjust s.ingredients ex.ingredientRefs AdjustDirection.restore)
            rw [hsplit] at h
            exact h
          simp only [dropMealToCell, hfind, clonePlan_id, hslot, Option.getD_some, hsplit]
          exact goodState_commit _ _ hs hings
    | moveOrSwapCell a b =>
      by_cases hg : (slotKey a == slotKey b && a.day == b.day && a.mealType == b.mealType) = true
      · show GoodState (moveOrSwapCell s a b)
        rw [moveOrSwapCell, if_pos hg]
        exact hs
      · show GoodState (moveOrSwapCell s a b)
        cases hf : getSlot (clonePlan (currentPlanOf (ensurePlan s.weekPlans
            s.currentWeekStartDate) s.currentWeekStartDate)) a with
        | none =>
          simp only [moveOrSwapCell, hg, Bool.false_eq_true, if_false, ite_self, hf]
          exact hs
        | some e =>
          simp only [moveOrSwapCell, hg, Bool.false_eq_true, if_false, hf]
          exact goodState_commit _ _ hs hs.1
    | clearCell addr => exact goodState_commit _ _ hs hs.1
    | removeCellToInventory addr =>
      cases hf : getSlot (clonePlan (currentPlanOf (ensurePlan s.weekPlans
          s.currentWeekStartDate) s.currentWeekStartDate)) addr with
      | none =>
        show GoodState (removeCellToInventory s addr)
        simp only [removeCellToInventory, hf]
        exact hs
      | some slot =>
        show GoodState (removeCellToInventory s addr)
        simp only [removeCellToInventory, hf]
        exact goodState_commit _ _ hs
          (nonnegCounts_adjust s.ingredients slot.ingredientRefs AdjustDirection.restore)
    | makeLeftovers addr =>
      by_cases hd : addr.day ≥ 6
      · show GoodState (makeLeftovers s addr)
        rw [makeLeftovers, if_pos hd]
        exact hs
      · show GoodState (makeLeftovers s addr)
        cases hf : getSlot (clonePlan (currentPlanOf (ensurePlan s.weekPlans
            s.currentWeekStartDate) s.currentWeekStartDate)) addr with
        | none =>
          simp only [makeLeftovers, hd, if_false, ite_self, hf]
          exact hs
        | some e =>
          simp only [makeLeftovers, hd, if_false, hf]
          exact goodState_commit _ _ hs hs.1
    | setCellServings addr servings =>
      cases hf : getSlot (clonePlan (currentPlanOf (ensurePlan s.weekPlans
          s.currentWeekStartDate) s.currentWeekStartDate)) addr with
      | none =>
        show GoodState (setCellServings s addr servings)
        simp only [setCellServings, hf]
        exact hs
      | some original =>
        show GoodState (setCellServings s addr servings)
        simp only [setCellServings, hf]
        refine goodState_commit _ _ hs ?_
        intro g hg
        rw [List.mem_map] at hg
        obtain ⟨g0, _, hEq⟩ := hg
        rw [← hEq]
        exact roundCount_nonneg (le_max_left _ _)
    | mergeReceiptItems items =>
      exact goodState_commit _ _ hs (nonnegCounts_mergeReceipt env items s.ingredients 0 hs.1)
    | addProfile name color => exact goodState_commit _ _ hs hs.1
    | importState payload =>
      cases hi : payload.ingredients with
      | none =>
        show GoodState (importState env s payload)
        simp only [importState, hi]
        exact hs
      | some pIngs =>
        cases hm : payload.meals with
        | none =>
          show GoodState (importState env s payload)
          simp only [importState, hi, hm]
          exact hs
        | some pMeals =>
          cases hw : payload.weekPlans with
          | none =>
            show GoodState (importState env s payload)
            simp only [importState, hi, hm, hw]
            exact hs
          | some pPlans =>
            by_cases hc : payload.currentWeekStartDate = ""
            · show GoodState (importState env s payload)
              simp only [importState, hi, hm, hw, hc, if_true]
              exact hs
            · show GoodState (importState env s payload)
              simp only [importState, hi, hm, hw, hc, if_false]
              refine goodState_commit _ _ hs ?_
              intro g hg
              rw [List.mem_map] at hg
              obtain ⟨g0, hg0, hEq⟩ := hg
              rw [← hEq]
              exact hst pIngs hi g0 hg0

theorem goodState_foldl (env : Env) (steps : List Step) :
    ∀ s0 : PlannerState, GoodState s0 → (∀ st ∈ steps, GoodStep st) →
      GoodState (steps.foldl (fun s st => applyStep env st s) s0) := by
  induction steps with
  | nil =>
    intro s0 h0 _
    exact h0
  | cons st rest ih =>
    intro s0 h0 hsteps
    exact ih _ (goodState_step env st s0 h0 (hsteps st (List.mem_cons_self _ _)))
      (fun st2 hst2 => hsteps st2 (List.mem_cons_of_mem _ hst2))

/-- An import payload that passes validation but carries a negative
stock count. -/
def badPayload : ImportPayload :=
  { ingredients := some [mkIng "z" "zed" (-5) (some 1)]
    meals := some []
    profiles := some [{ id := "p1", name := "Me", color := "#fff", createdAt := "t0" }]
    pinnedMealIds := some []
    weekPlans := some []
    currentWeekStartDate := "w2" }

/-- C6: non-negativity of every ledger count is an invariant of every
planner operation — ledger mutations, consumption and restoration,
receipt import, undo and redo all clamp at zero — provided every
`importState` payload in the sequence itself carries only non-negative
counts, since `importState` installs imported counts unclamped. -/
theorem claim_C6 (env : Env) (steps : List Step) (s0 : PlannerState)
    (h0 : GoodState s0) (hsteps : ∀ st ∈ steps, GoodStep st) :
    ∀ g ∈ (steps.foldl (fun s st => applyStep env st s) s0).ingredients, 0 ≤ g.count :=
  (goodState_foldl env steps s0 h0 hsteps).1

/-- Witness for C6: an adjustment of −10 against a stock of 4 leaves the
clamped ledger entry non-negative. -/
theorem claim_C6_witness :
    0 ≤ ((([Step.cmd (Command.adjustIngredientCount "c" (-10))]).foldl
        (fun s st => applyStep envA st s) chickenState).ingredients.getD 0
          (mkIng "x" "x" 0 none)).count :=
  claim_C6 envA [Step.cmd (Command.adjustIngredientCount "c" (-10))] chickenState
    ⟨fun g hg => by
        rw [List.mem_singleton.mp hg]
        norm_num [mkIng],
      fun sn hsn => absurd hsn (List.not_mem_nil sn),
      fun sn hsn => absurd hsn (List.not_mem_nil sn)⟩
    (fun st hst => by
      rw [List.mem_singleton.mp hst]
      trivial)
    _ (List.mem_singleton.mpr rfl)

/-- Counterexample to C6 as stated: `importState` performs no clamping,
so one reachable step from the scenario state installs a ledger whose
only count is −5 < 0. -/
theorem claim_C6_counterexample :
    ((applyStep envA (Step.cmd (Command.importState badPayload)) chickenState).ingredients.map
        (fun g => g.count) = [(-5 : ℚ)]) ∧
      ¬ ((0 : ℚ) ≤ -5) := by
  have hw2 : (("w2" : String) = "") = False := eq_false (by decide)
  constructor
  · norm_num [applyStep, applyCommand, importState, badPayload, chickenState, mkState, mkIng,
      hw2, commitWithHistory_ingredients, List.map]
  · norm_num
